import Mathlib

/-! Video watermark front end: task registry, task view and tamper report.

A shallow embedding of the task bookkeeping of `VideoWatermarkApp`
(`src/video_watermark/static/js/app.js`): the `processingTasks` map, the
children of `#processing-list` and of `#files-list`, and the functions
`handleUpload`, `showProcessingStatus`, `createProcessingTaskElement`,
`updateProcessingStatus`, `loadFiles`, `renderFiles`, `showTamperReport`,
`updateVideoAnalysis`, `formatDuration` and the step functions of `startTour`.

Modelling conventions.
* A JavaScript object with optional properties is a structure whose optional
  fields are `Option`s; `none` stands for an absent property.
* Progress values are rationals: only comparison with zero, ordering and
  rounding to a fixed number of decimals are used on them. Durations are whole
  numbers of seconds that are doubles; the quotients of `formatDuration` are
  rounded as doubles are.
* The `Map` is an association list in insertion order.
* The DOM is reduced to the parts the code reads or writes. The selector
  `.processing-task[data-task-id="<id>"]` denotes the first task element
  whose `dataset.taskId` equals `<id>` when the identifier needs no escaping
  inside a quoted attribute value; for the other identifiers
  `document.querySelector` throws.
* The class has no method `switchTab`: the call at the end of
  `showProcessingStatus` throws after the loop, and which tab is active is
  decided outside the source.
* Effects that leave the page (toasts, `loadFiles`) are recorded in the state.
* An `async` function is split at its `await`: the result of the request is an
  argument of the model.
* A function that can throw returns the state it leaves together with the
  exception, if any; `showProcessingStatus` and `updateProcessingStatus` name
  the state that the call leaves, `showProcessingStatusRun` and
  `updateProcessingStatusRun` the state and the exception.
-/

namespace VideoWatermark

/-! ## Data model -/

/-- A task record as it arrives in `result.tasks` and is stored in `processingTasks`. -/
structure Task where
  task_id : String
  filename : String
  status : String
  progress : Option Rat
  output_path : Option String
deriving DecidableEq

/-- A `processing_update` payload: a partial task record keyed by `task_id`. -/
structure Update where
  task_id : String
  filename : Option String := none
  status : Option String := none
  progress : Option Rat := none
  output_path : Option String := none
deriving DecidableEq

/-- The element built by `createProcessingTaskElement`, reduced to what the code sets:
`dataset.taskId`, the class names, the texts, the width of `.progress-fill` (in per cent),
and the `.btn-download` button (its `style.display`, its `data-file-path` and the number
of click listeners attached to it). -/
structure TaskElement where
  taskId : String
  className : String
  iconClass : String
  fileName : String
  statusClass : String
  statusText : String
  progressWidth : Rat
  progressText : String
  downloadDisplay : String
  filePath : String
  clickListeners : Nat
deriving DecidableEq

/-- A toast handed to `showToast(type, title, message)`. -/
structure Toast where
  type : String
  title : String
  message : String
deriving DecidableEq

/-- An entry of the `files` array of `GET /files`. -/
structure PersistedFile where
  filename : String
  size : Nat
  watermark_text : Option String
  timestamp : Rat
  relative_path : String
  watermarked : Bool
deriving DecidableEq

/-- The tamper-check button of a file row: its `disabled` flag, its `title`, and the
arguments `(relative_path, filename)` of the `tamperCheck` call its click listener makes,
if it has a click listener. -/
structure CheckButton where
  disabled : Bool
  title : String
  handler : Option (String × String)
deriving DecidableEq

/-- A row of the files table, reduced to what `renderFiles` interpolates: the file name,
the number handed to `formatFileSize`, the text of the watermark tag (`none` for the text
"N/A (Original)"), the epoch seconds handed to `Date`, the path of the `downloadFile`
listener, the tamper-check button, and the arguments of the `handleDeleteFile` listener. -/
structure FileRow where
  filename : String
  sizeBytes : Nat
  watermarkTag : Option String
  timestamp : Rat
  downloadPath : String
  checkBtn : CheckButton
  deleteArgs : String × String
deriving DecidableEq

/-- A child of `#files-list`: the loading indicator, an error alert with its text, the
empty-state block, or the files table. -/
inductive FilesChild where
  | loading
  | alertError (message : String)
  | emptyState
  | table (rows : List FileRow)
deriving DecidableEq

/-- The part of the application state the task functions read and write. -/
structure AppState where
  /-- The map `this.processingTasks`, in insertion order. -/
  processingTasks : List (String × Task)
  /-- The children of `#processing-list`, in document order. -/
  processingList : List TaskElement
  /-- Whether `#processing-status` has been given `style.display = 'block'`. -/
  statusContainerShown : Bool
  /-- The tab that is active; `#manage-tab` has the class `active` when it is `manage`. -/
  activeTab : String
  /-- The toasts shown so far, oldest first. -/
  toasts : List Toast
  /-- How many times `loadFiles` has been started. -/
  loadFilesCalls : Nat
  /-- The children of `#files-list`. -/
  filesList : List FilesChild
deriving DecidableEq

/-! ## The `Map` operations used by the code -/

/-- `Map.prototype.get`: the value stored under `k`, if any. -/
def mapGet : List (String × Task) → String → Option Task
  | [], _ => none
  | (k', v) :: m, k => if k' = k then some v else mapGet m k

/-- `Map.prototype.has`. -/
def mapHas (m : List (String × Task)) (k : String) : Bool :=
  (mapGet m k).isSome

/-- `Map.prototype.set`: replaces the value of an existing key in place, appends a new key
at the end. -/
def mapSet : List (String × Task) → String → Task → List (String × Task)
  | [], k, v => [(k, v)]
  | (k', v') :: m, k, v => if k' = k then (k, v) :: m else (k', v') :: mapSet m k v

/-! ## Strings and numbers -/

/-- `String.prototype.toUpperCase`, on the ASCII letters. -/
def toUpperCase (s : String) : String :=
  String.mk (s.data.map Char.toUpper)

/-- `Number.prototype.toFixed(digits)`: the magnitude is rounded to the nearest multiple of
`10^-digits`, ties upwards, and printed with exactly `digits` decimals. -/
def toFixed (x : Rat) (digits : Nat) : String :=
  let n : Nat := (Rat.floor (|x| * 10 ^ digits + 1 / 2)).toNat
  let whole := toString (n / 10 ^ digits)
  let frac := toString (n % 10 ^ digits)
  let sign := if x < 0 then "-" else ""
  if digits = 0 then sign ++ whole
  else sign ++ whole ++ "." ++ String.mk (List.replicate (digits - frac.length) '0') ++ frac

/-- The value of `task.progress || 0`. -/
def progressOrZero : Option Rat → Rat
  | some q => if q = 0 then 0 else q
  | none => 0

/-- The text `${task.progress ? task.progress.toFixed(0) : 0}%`. -/
def progressLabel : Option Rat → String
  | some q => if q = 0 then "0%" else toFixed q 0 ++ "%"
  | none => "0%"

/-! ## Toasts and tabs -/

/-- `showToast(type, title, message)`: one more toast in the toast container. -/
def showToast (s : AppState) (type title message : String) : AppState :=
  { s with toasts := s.toasts ++ [{ type := type, title := title, message := message }] }

/-- Modelled from the spec: the class defines no method `switchTab`, so the two calls
`this.switchTab(...)` of the source throw a TypeError, and the source never changes the
class list of `#manage-tab`. The spec treats tab switching as page chrome outside the task
state; this function stands for whatever makes a tab the active one: it records which tab
is active, and `#manage-tab` carries the class `active` exactly when that tab is `manage`. -/
def switchTab (s : AppState) (tab : String) : AppState :=
  { s with activeTab := tab }

/-- The start of `loadFiles()`, up to the `fetch`: the container shows the loading
indicator; the request itself completes later (see `loadFilesDone`). -/
def loadFiles (s : AppState) : AppState :=
  { s with loadFilesCalls := s.loadFilesCalls + 1, filesList := [FilesChild.loading] }

/-! ## Registration: `showProcessingStatus` -/

/-- The icon class chosen by `createProcessingTaskElement`: the spinner, replaced by the
check mark for `completed` and then by the cross for `failed`. -/
def createdIconClass (status : String) : String :=
  let iconClass := "fas fa-spinner fa-spin"
  let iconClass := if status = "completed" then "fas fa-check-circle" else iconClass
  if status = "failed" then "fas fa-times-circle" else iconClass

/-- `createProcessingTaskElement(task)`. -/
def createProcessingTaskElement (task : Task) : TaskElement :=
  { taskId := task.task_id
    className := "processing-task " ++ task.status
    iconClass := createdIconClass task.status
    fileName := task.filename
    statusClass := "task-status " ++ task.status
    statusText := toUpperCase task.status
    progressWidth := progressOrZero task.progress
    progressText := progressLabel task.progress
    downloadDisplay := if task.status = "completed" then "inline-block" else "none"
    filePath :=
      match task.output_path with
      | some p => p
      | none => ""
    clickListeners := if task.status = "completed" then 1 else 0 }

/-- The body of the `tasks.forEach` loop of `showProcessingStatus`. -/
def registerTask (s : AppState) (task : Task) : AppState :=
  if mapHas s.processingTasks task.task_id then s
  else
    { s with
      processingTasks := mapSet s.processingTasks task.task_id task
      processingList := s.processingList ++ [createProcessingTaskElement task] }

/-- The outcome of one `showProcessingStatus` call: the state it leaves and the exception
it throws, if it throws. -/
structure RegisterRun where
  state : AppState
  error : Option String
deriving DecidableEq

/-- The TypeError of `this.switchTab('embed')`: the class has no property `switchTab`. -/
def switchTabError : String :=
  "TypeError: this.switchTab is not a function"

/-- `showProcessingStatus(tasks)`; `none` stands for a missing `tasks` property. With no
task the function returns at its guard. Otherwise the loop runs to its end and the call
`this.switchTab('embed')` that follows it throws: the tab is left as it was and the final
`scrollIntoView` is not reached. -/
def showProcessingStatusRun (s : AppState) (tasks : Option (List Task)) : RegisterRun :=
  match tasks with
  | none => { state := s, error := none }
  | some [] => { state := s, error := none }
  | some (t :: ts) =>
    let s1 := { s with statusContainerShown := true }
    let s2 := (t :: ts).foldl registerTask s1
    { state := s2, error := some switchTabError }

/-- The state that `showProcessingStatus(tasks)` leaves. -/
def showProcessingStatus (s : AppState) (tasks : Option (List Task)) : AppState :=
  (showProcessingStatusRun s tasks).state

/-! ## Updates: `updateProcessingStatus` -/

/-- `Object.assign(task, update)`: every property present in `update` overwrites the
property of `task`. -/
def objectAssign (task : Task) (update : Update) : Task :=
  { task_id := update.task_id
    filename :=
      match update.filename with
      | some v => v
      | none => task.filename
    status :=
      match update.status with
      | some v => v
      | none => task.status
    progress :=
      match update.progress with
      | some v => some v
      | none => task.progress
    output_path :=
      match update.output_path with
      | some v => some v
      | none => task.output_path }

/-- The first task element whose `dataset.taskId` is `id`: the element that the selector
`.processing-task[data-task-id="<id>"]` denotes when `id` needs no escaping. -/
def elementWithId : List TaskElement → String → Option TaskElement
  | [], _ => none
  | e :: es, id => if e.taskId = id then some e else elementWithId es id

/-- Whether `id` can stand unescaped inside the quoted attribute value of a selector: it
holds no double quote (34), no backslash (92), no line break (10, 12, 13) and no null
character (0). -/
def selectorSafe (id : String) : Bool :=
  id.data.all
    (fun c => !(c.toNat = 34 || c.toNat = 92 || c.toNat = 10 || c.toNat = 12 ||
      c.toNat = 13 || c.toNat = 0))

/-- The text of the exception that `document.querySelector` throws for a selector it cannot
parse. -/
def selectorSyntaxError : String :=
  "SyntaxError: Failed to execute querySelector on Document: not a valid selector"

/-- The call `document.querySelector` of `updateProcessingStatus`. The `task_id` is put into
the selector text as it is. For an identifier that needs no escaping the result is the
first task element with that `dataset.taskId`, or nothing. Any other identifier changes
the selector text: a double quote ends the quoted value and a line break breaks it, so
that the text is no selector and the call throws a `SyntaxError`, as it does for the
identifiers `a"b` and `x"y`. The function follows this case for every identifier that is
not `selectorSafe`; identifiers made up so that the changed text is a selector again (an
escape sequence after a backslash, or a quote followed by the rest of a selector list) are
not followed further, and the statements about single calls are made for identifiers that
need no escaping. -/
def querySelector (es : List TaskElement) (id : String) : Except String (Option TaskElement) :=
  if selectorSafe id then Except.ok (elementWithId es id)
  else Except.error selectorSyntaxError

/-- The list after the element found by `querySelector` has been changed in place. -/
def replaceElement : List TaskElement → String → TaskElement → List TaskElement
  | [], _, _ => []
  | e :: es, id, e' => if e.taskId = id then e' :: es else e :: replaceElement es id e'

/-- The class of the icon after the status branch of `updateProcessingStatus`. -/
def updatedIconClass (status : String) : String :=
  if status = "pending" then "fas fa-hourglass-half"
  else if status = "processing" then "fas fa-spinner fa-spin"
  else if status = "completed" then "fas fa-check-circle"
  else if status = "failed" then "fas fa-times-circle"
  else "fas"

/-- What `updateProcessingStatus` does to the task element, given the merged task. -/
def updateTaskElement (task : Task) (el : TaskElement) : TaskElement :=
  let el1 : TaskElement :=
    { el with
      className := "processing-task " ++ task.status
      progressWidth := progressOrZero task.progress
      progressText := progressLabel task.progress
      statusClass := "task-status " ++ task.status
      statusText := toUpperCase task.status
      iconClass := updatedIconClass task.status }
  if task.status = "completed" then
    { el1 with
      downloadDisplay := "inline-block"
      filePath :=
        match task.output_path with
        | some p => p
        | none => "undefined"
      clickListeners := el1.clickListeners + 1 }
  else el1

/-- The part of `updateProcessingStatus(update)` after the two lookups: the guard
`if (!task || !taskElement) return` and everything below it, given the element that
`querySelector` returned. -/
def updateProcessingStatusBody (s : AppState) (update : Update)
    (found : Option TaskElement) : AppState :=
  match mapGet s.processingTasks update.task_id, found with
  | some stored, some taskElement =>
    let task := objectAssign stored update
    let s1 : AppState :=
      { s with
        processingTasks := mapSet s.processingTasks update.task_id task
        processingList :=
          replaceElement s.processingList update.task_id (updateTaskElement task taskElement) }
    let s2 :=
      if task.status = "completed" then
        let s3 := showToast s1 "success" "Processing Complete"
          (task.filename ++ " is ready for download.")
        if s3.activeTab = "manage" then loadFiles s3 else s3
      else s1
    if task.status = "failed" then
      showToast s2 "error" "Processing Failed" (task.filename ++ " failed to process.")
    else s2
  | _, _ => s

/-- The outcome of one `updateProcessingStatus` call: the state it leaves and the exception
it throws, if any. -/
structure UpdateRun where
  state : AppState
  error : Option String
deriving DecidableEq

/-- `updateProcessingStatus(update)`: the map lookup, then `querySelector`, which throws
before the guard and before `Object.assign` when the selector text is malformed, then the
rest of the function. -/
def updateProcessingStatusRun (s : AppState) (update : Update) : UpdateRun :=
  match querySelector s.processingList update.task_id with
  | Except.error e => { state := s, error := some e }
  | Except.ok found => { state := updateProcessingStatusBody s update found, error := none }

/-- The state that `updateProcessingStatus(update)` leaves, whether it returns or throws. -/
def updateProcessingStatus (s : AppState) (update : Update) : AppState :=
  (updateProcessingStatusRun s update).state

/-- The state that `updateProcessingStatus(update)` leaves when the `task_id` needs no
escaping, so that `querySelector` returns the element with that identifier, if any. -/
def updateSafe (s : AppState) (update : Update) : AppState :=
  updateProcessingStatusBody s update (elementWithId s.processingList update.task_id)

/-! ## Reachable states -/

/-- The state after the constructor has run: an empty map, an empty processing list, and
the first `loadFiles()` started by `init`. -/
def initialState : AppState :=
  { processingTasks := []
    processingList := []
    statusContainerShown := false
    activeTab := "embed"
    toasts := []
    loadFilesCalls := 1
    filesList := [FilesChild.loading] }

/-- The states the application can be in: the initial state followed by any sequence of
`showProcessingStatus` calls, `updateProcessingStatus` calls and tab switches. -/
inductive Reachable : AppState → Prop
  | init : Reachable initialState
  | register (s : AppState) (tasks : Option (List Task)) :
      Reachable s → Reachable (showProcessingStatus s tasks)
  | push (s : AppState) (update : Update) :
      Reachable s → Reachable (updateProcessingStatus s update)
  | tab (s : AppState) (name : String) :
      Reachable s → Reachable (switchTab s name)

/-! ## Tamper report: `showTamperReport` -/

/-- The `summary` object of a tamper report. -/
structure TamperSummary where
  ok : Bool
  issue_count : Int
deriving DecidableEq

/-- One entry of `report.issues`: its `type` tag and the text `JSON.stringify(issue)`. -/
structure Issue where
  type : String
  json : String
deriving DecidableEq

/-- The payload of `GET /check_tampering/...`. -/
structure TamperReport where
  summary : TamperSummary
  issues : List Issue
  frames_analyzed : Int
  fps : Option Rat
deriving DecidableEq

/-- One `<li>` of the issue list: the heading in `<strong>` and the serialised issue. -/
structure IssueItem where
  heading : String
  detail : String
deriving DecidableEq

/-- The value of `issuesList`: the `<ul>` of detected issues, or the paragraph
"No tampering signs detected." -/
inductive IssuesView where
  | detected (items : List IssueItem)
  | noSigns
deriving DecidableEq

/-- The report handed to `showModal`, reduced to the interpolated values. -/
structure TamperReportView where
  filename : String
  statusClass : String
  icon : String
  status : String
  issueCount : Int
  framesAnalyzed : Int
  fpsText : String
  issuesList : IssuesView
deriving DecidableEq

/-- The heading `issue.type.replace(/_/g, ' ').toUpperCase()`. -/
def issueHeading (type : String) : String :=
  toUpperCase (String.mk (type.data.map (fun c => if c = '_' then ' ' else c)))

/-- `showTamperReport(filename, report)`. -/
def showTamperReport (filename : String) (report : TamperReport) : TamperReportView :=
  { filename := filename
    statusClass := if report.summary.ok then "success" else "error"
    icon := if report.summary.ok then "fas fa-shield-alt" else "fas fa-exclamation-triangle"
    status := if report.summary.ok then "OK" else "TAMPERED"
    issueCount := report.summary.issue_count
    framesAnalyzed := report.frames_analyzed
    fpsText :=
      match report.fps with
      | some q => if q = 0 then "N/A" else toFixed q 2
      | none => "N/A"
    issuesList :=
      if report.issues.length > 0 then
        IssuesView.detected
          (report.issues.map (fun issue =>
            { heading := issueHeading issue.type, detail := issue.json }))
      else IssuesView.noSigns }

/-! ## Network results -/

/-- What `await fetch(...)` followed by `await response.json()` yields: the request is
rejected, or a response arrives with its `ok` flag and its body (`none` when the body is
not JSON, so that `response.json()` rejects). -/
inductive FetchResult (α : Type) where
  | rejected
  | response (ok : Bool) (body : Option α)

/-- The value of `text || fallback` for an optional string: the text when it is present and
not empty. -/
def orDefault (text : Option String) (fallback : String) : String :=
  match text with
  | some e => if e = "" then fallback else e
  | none => fallback

/-! ## The file list: `renderFiles` and `loadFiles` -/

/-- The row that the `files.forEach` loop of `renderFiles` builds for one file. -/
def fileRow (file : PersistedFile) : FileRow :=
  { filename := file.filename
    sizeBytes := file.size
    watermarkTag :=
      match file.watermark_text with
      | some w => if w = "" then none else some w
      | none => none
    timestamp := file.timestamp
    downloadPath := file.relative_path
    checkBtn :=
      if file.watermarked then
        { disabled := false, title := "Tamper Check",
          handler := some (file.relative_path, file.filename) }
      else
        { disabled := true, title := "Tamper check only for watermarked files",
          handler := none }
    deleteArgs := (file.relative_path, file.filename) }

/-- `renderFiles(files)`: the container is emptied, then it receives the empty-state block
or the table, appended to what it holds. -/
def renderFiles (s : AppState) (files : List PersistedFile) : AppState :=
  let s1 := { s with filesList := [] }
  if files.length = 0 then { s1 with filesList := [FilesChild.emptyState] }
  else { s1 with filesList := s1.filesList ++ [FilesChild.table (files.map fileRow)] }

/-- The body of a `GET /files` response. -/
structure FilesBody where
  files : Option (List PersistedFile)
  error : Option String

/-- The text of the alert written by the `catch` branch of `loadFiles`. -/
def networkErrorAlert : String :=
  "Network error. Could not connect to the server."

/-- The rest of `loadFiles()` once the request has completed. A rejected request, a body
that is not JSON and a body without `files` all end in the `catch` branch. -/
def loadFilesDone (s : AppState) (net : FetchResult FilesBody) : AppState :=
  match net with
  | FetchResult.rejected => { s with filesList := [FilesChild.alertError networkErrorAlert] }
  | FetchResult.response _ none =>
    { s with filesList := [FilesChild.alertError networkErrorAlert] }
  | FetchResult.response true (some body) =>
    match body.files with
    | some files => renderFiles s files
    | none => { s with filesList := [FilesChild.alertError networkErrorAlert] }
  | FetchResult.response false (some body) =>
    let s1 := { s with
      filesList :=
        [FilesChild.alertError ("Error loading files: " ++ orDefault body.error "Unknown error")] }
    showToast s1 "error" "File Load Error" "Could not retrieve file list from the server."

/-- A whole run of `loadFiles()`: the start, then the completion of the request. -/
def loadFilesRun (s : AppState) (net : FetchResult FilesBody) : AppState :=
  loadFilesDone (loadFiles s) net

/-! ## Upload: `handleUpload` -/

/-- The white space that `String.prototype.trim` removes. -/
def isJsWhitespace (c : Char) : Bool :=
  c.toNat = 0x9 || c.toNat = 0xA || c.toNat = 0xB || c.toNat = 0xC || c.toNat = 0xD ||
  c.toNat = 0x20 || c.toNat = 0xA0 || c.toNat = 0x1680 ||
  (0x2000 ≤ c.toNat && c.toNat ≤ 0x200A) || c.toNat = 0x2028 || c.toNat = 0x2029 ||
  c.toNat = 0x202F || c.toNat = 0x205F || c.toNat = 0x3000 || c.toNat = 0xFEFF

/-- `String.prototype.trim`. -/
def jsTrim (s : String) : String :=
  String.mk (((s.data.dropWhile isJsWhitespace).reverse.dropWhile isJsWhitespace).reverse)

/-- The advanced options gathered from the page by `handleUpload`. -/
structure UploadOptions where
  preserve_quality : Bool
  optimize_size : Bool
  batch_processing : Bool
  background_processing : Bool
  auto_delete : Bool
  generate_preview : Bool
  output_format : String
  compression_level : String
  strength : Rat
deriving DecidableEq

/-- What `handleUpload` reads from the submitted form: the files chosen in the file control
`files` (by file name), the value of the text control `watermark_text`, and the option
controls. -/
structure UploadForm where
  selected : List String
  watermark_text : String
  options : UploadOptions
deriving DecidableEq

/-- The entries `formData.getAll('files')` of `new FormData(form)`, by file name: the chosen
files, and for a file control with no file chosen one empty `File`, whose name is the empty
string. -/
def formDataFiles (form : UploadForm) : List String :=
  if form.selected = [] then [""] else form.selected

/-- The `POST /upload_and_process` request: the form data with the options appended. -/
structure UploadRequest where
  files : List String
  watermark_text : String
  options : UploadOptions
deriving DecidableEq

/-- The body of the upload response. -/
structure UploadBody where
  tasks : Option (List Task)
  error : Option String

/-- The outcome of one `handleUpload` call: the state afterwards and the request that was
issued, if one was. -/
structure UploadRun where
  state : AppState
  request : Option UploadRequest

/-- `handleUpload(event)`, with the result of the request as an argument. An exception
thrown inside the `try` block, by `fetch`, by `response.json()` or by
`showProcessingStatus`, is caught and answered with the "Server Error" toast. The submit
button, disabled while the request runs and enabled again in `finally`, is left out. -/
def handleUpload (s : AppState) (form : UploadForm) (net : FetchResult UploadBody) :
    UploadRun :=
  if (formDataFiles form).length = 0 || jsTrim form.watermark_text = "" then
    { state := showToast s "error" "Missing Data"
        "Please select video files and enter watermark text."
      request := none }
  else
    let connectError := fun (s1 : AppState) => showToast s1 "error" "Server Error"
      "Could not connect to the server or a network error occurred."
    { request := some
        { files := formDataFiles form, watermark_text := form.watermark_text,
          options := form.options }
      state :=
        match net with
        | FetchResult.rejected => connectError s
        | FetchResult.response _ none => connectError s
        | FetchResult.response true (some result) =>
          let registered := showProcessingStatusRun
            (showToast s "success" "Upload Successful"
              "Videos are now processing. See status below.")
            result.tasks
          match registered.error with
          | some _ => connectError registered.state
          | none => registered.state
        | FetchResult.response false (some result) =>
          showToast s "error" "Processing Failed"
            (orDefault result.error "An unknown error occurred during upload.") }

/-! ## Sequences of calls -/

/-- A call that the page makes on the task state. -/
inductive Event where
  | register (tasks : Option (List Task))
  | push (update : Update)
  | tab (name : String)

/-- The state after one call. -/
def step (s : AppState) : Event → AppState
  | Event.register tasks => showProcessingStatus s tasks
  | Event.push update => updateProcessingStatus s update
  | Event.tab name => switchTab s name

/-- The state after a sequence of calls, from the initial state. -/
def run (events : List Event) : AppState :=
  events.foldl step initialState

/-- The `task_id`s that a call hands to the registration loop, in order. -/
def registeredIds : Event → List String
  | Event.register (some tasks) => tasks.map Task.task_id
  | _ => []

/-- One more identifier is seen: it is put last unless it has been seen before. -/
def addKey (seen : List String) (k : String) : List String :=
  if k ∈ seen then seen else seen ++ [k]

/-- The order of first registration: every identifier once, in the order in which the
identifiers are first seen. -/
def firstSeen (ids : List String) : List String :=
  ids.foldl addKey []

/-- The keys of the map, in iteration order. -/
def taskKeys (s : AppState) : List String :=
  s.processingTasks.map Prod.fst

/-- The `dataset.taskId` of the task elements, in document order. -/
def elementIds (s : AppState) : List String :=
  s.processingList.map TaskElement.taskId

/-! ## Durations: `formatDuration` -/

/-- `String.prototype.padStart(2, '0')`. -/
def padStart2 (s : String) : String :=
  String.mk (List.replicate (2 - s.length) '0' ++ s.data)

/-- The replacement `.replace(/^00:/, '')`: one leading `00:` is removed. -/
def stripLeadingZeroHours (cs : List Char) : List Char :=
  match cs with
  | a :: b :: c :: rest => if a = '0' ∧ b = '0' ∧ c = ':' then rest else cs
  | _ => cs

/-! ### Numbers

JavaScript numbers are IEEE 754 doubles. `formatDuration` is followed on durations that are
whole numbers of seconds: such a number, and every whole number computed from it, is
written as a `Nat`; a quotient, which need not be whole, is a `Double`. -/

/-- The integer nearest to `num / den`, ties going to the even integer. -/
def roundHalfEven (num den : Nat) : Nat :=
  let q := num / den
  let r := num % den
  if 2 * r < den then q else if den < 2 * r then q + 1 else q + q % 2

/-- The loop of `log2`, bounded by `fuel`. -/
def log2Loop : Nat → Nat → Nat
  | 0, _ => 0
  | fuel + 1, n => if 2 ≤ n then log2Loop fuel (n / 2) + 1 else 0

/-- The largest `e` with `2 ^ e ≤ n`, for `n ≥ 1`. -/
def log2 (n : Nat) : Nat :=
  log2Loop n n

/-- The exponent `e` of the binade of the positive quotient `a / b`:
`2 ^ e ≤ a / b < 2 ^ (e + 1)`. -/
def binade (a b : Nat) : Int :=
  if b ≤ a then (log2 (a / b) : Int) else -((log2 ((b - 1) / a) + 1 : Nat) : Int)

/-- A non-negative double: the number `sig * 2 ^ exp`. -/
structure Double where
  sig : Nat
  exp : Int
deriving DecidableEq

/-- The operator `/` on two whole numbers, `b` positive: the double nearest to `a / b`,
which has a significand of 53 bits, rounded to nearest with ties to even. The quotients
that `formatDuration` forms lie between `2 ^ -12` and the largest double, so that overflow
and subnormal numbers do not occur and are not modelled. -/
def numberDivide (a b : Nat) : Double :=
  if a = 0 then { sig := 0, exp := 0 }
  else
    let exp := binade a b - 52
    { sig :=
        if 0 ≤ exp then roundHalfEven a (b * 2 ^ exp.toNat)
        else roundHalfEven (a * 2 ^ (-exp).toNat) b
      exp := exp }

/-- `Math.floor(x)`. -/
def Math.floor (x : Double) : Nat :=
  if 0 ≤ x.exp then x.sig * 2 ^ x.exp.toNat else x.sig / 2 ^ (-x.exp).toNat

/-- The double nearest to the whole number `y`; it is a whole number again. -/
def nearestDouble (y : Nat) : Nat :=
  Math.floor (numberDivide y 1)

/-- Whether the whole number `v` is a double, so that a JavaScript number can hold it. -/
def isDouble (v : Nat) : Bool :=
  decide (nearestDouble v = v)

/-- The decimal numbers with `k` significant digits next to `v`, where `v` has `d` digits:
the one that reads back as the double `v`, if there is one; of two the nearer, and of two
equally near the one with the even last digit. -/
def shortestCandidate (v d k : Nat) : Option Nat :=
  let p := 10 ^ (d - k)
  let lo := v / p * p
  let hi := lo + p
  if nearestDouble lo = v then
    if nearestDouble hi = v then
      if v - lo < hi - v then some lo
      else if hi - v < v - lo then some hi
      else if (lo / p) % 2 = 0 then some lo else some hi
    else some lo
  else if nearestDouble hi = v then some hi
  else none

/-- The decimal number with the fewest significant digits that reads back as the double
`v`: the digits that `Number.prototype.toString` prints for `v`. -/
def shortestDecimal (v : Nat) : Nat :=
  let d := (Nat.toDigits 10 v).length
  ((List.range d).findSome? (fun i => shortestCandidate v d (i + 1))).getD v

/-- `v.toString()` for a whole double `v`: the shortest digits that read back as `v`,
followed by zeros up to the decimal point when the number is below `10 ^ 21`, and in
exponent form from there on. -/
def numberToString (v : Nat) : String :=
  let y := shortestDecimal v
  if y < 10 ^ 21 then toString y
  else
    let digits := Nat.toDigits 10 y
    let exponent := "e+" ++ toString (digits.length - 1)
    match (digits.reverse.dropWhile (fun c => c == '0')).reverse with
    | [] => String.mk digits
    | [c] => String.mk [c] ++ exponent
    | c :: rest => String.mk (c :: '.' :: rest) ++ exponent

/-- `formatDuration(seconds)` for a whole number of seconds that is a double. The operator
`%` is exact on doubles, so that `seconds % 3600` and `seconds % 60` are whole numbers and
the last `Math.floor` changes nothing; the two quotients are rounded to doubles. -/
def formatDuration (seconds : Nat) : String :=
  let h := Math.floor (numberDivide seconds 3600)
  let m := Math.floor (numberDivide (seconds % 3600) 60)
  let s := seconds % 60
  let parts := [h, m, s].map (fun v => padStart2 (numberToString v))
  String.mk (stripLeadingZeroHours (String.intercalate ":" parts).data)

/-- The layout in the words of the specification: `HH = floor(s / 3600)`,
`MM = floor((s mod 3600) / 60)` and `SS = s mod 60` in exact arithmetic, each printed in
decimal and padded to two digits, joined by colons, with a leading `00:` removed. -/
def formatDurationExact (seconds : Nat) : String :=
  let h := seconds / 3600
  let m := (seconds % 3600) / 60
  let s := seconds % 60
  let parts := [h, m, s].map (fun v => padStart2 (toString v))
  String.mk (stripLeadingZeroHours (String.intercalate ":" parts).data)

/-- A field of a duration, as `formatDuration` prints it: the decimal digits of `n`,
padded with zeros to two places. -/
def twoDigits (n : Nat) : String :=
  padStart2 (toString n)

/-- The number that a run of decimal digits denotes. -/
def readDecimal (cs : List Char) : Nat :=
  cs.foldl (fun acc c => 10 * acc + (c.toNat - 48)) 0

/-- The fields of a text, separated by colons. -/
def splitColon : List Char → List (List Char)
  | [] => [[]]
  | c :: cs =>
    if c = ':' then [] :: splitColon cs
    else
      match splitColon cs with
      | [] => [[c]]
      | field :: fields => (c :: field) :: fields

/-- The number of seconds read back from a duration text: each field counts sixty times
the field after it, so `H:M:S` reads as `H * 3600 + M * 60 + S` and `M:S` as `M * 60 + S`. -/
def readDuration (text : String) : Nat :=
  (splitColon text.data).foldl (fun acc field => 60 * acc + readDecimal field) 0

/-! ## Video analysis: `updateVideoAnalysis` -/

/-- An analysis record of a `video_analyzed` event, with its duration in whole seconds. The
`issues` property may be missing. -/
structure AnalysisRecord where
  filename : String
  resolution : String
  duration : Nat
  fps : Rat
  issues : Option (List Issue)

/-- The badge at the end of an analysis item: "Clean" or "<n> Issues Found". -/
inductive AnalysisBadge where
  | clean
  | issuesFound (count : Nat)
deriving DecidableEq

/-- One `analysis-item` block, reduced to the interpolated values. -/
structure AnalysisItem where
  filename : String
  resolution : String
  duration : String
  fps : String
  badge : AnalysisBadge
deriving DecidableEq

/-- The content of `#analysis-results`: nothing, the summary heading followed by the items,
or the summary heading followed by "Analysis data not available." -/
inductive AnalysisContent where
  | empty
  | summary (items : List AnalysisItem)
  | notAvailable
deriving DecidableEq

/-- The argument of `updateVideoAnalysis`: an array of records, a single record, or a value
that is not truthy. -/
inductive AnalysisData where
  | batch (files : List AnalysisRecord)
  | single (record : AnalysisRecord)
  | missing

/-- The outcome of `updateVideoAnalysis`: the content of `#analysis-results` afterwards
(`none` when the page has no such element) and the exception thrown, if any. -/
structure AnalysisRun where
  resultsDiv : Option AnalysisContent
  error : Option String
deriving DecidableEq

/-- The item built by the `forEach` body of the batch branch: `file.issues.length` is read
without a check, so a record without `issues` makes the body throw (`none`). -/
def batchItem (file : AnalysisRecord) : Option AnalysisItem :=
  match file.issues with
  | none => none
  | some issues =>
    some
      { filename := file.filename
        resolution := file.resolution
        duration := formatDuration file.duration
        fps := toFixed file.fps 2
        badge :=
          if issues.length > 0 then AnalysisBadge.issuesFound issues.length
          else AnalysisBadge.clean }

/-- The item built by the single branch, which tests `analysisData.issues &&` first. -/
def singleItem (analysisData : AnalysisRecord) : AnalysisItem :=
  { filename := analysisData.filename
    resolution := analysisData.resolution
    duration := formatDuration analysisData.duration
    fps := toFixed analysisData.fps 2
    badge :=
      match analysisData.issues with
      | some issues =>
        if issues.length > 0 then AnalysisBadge.issuesFound issues.length
        else AnalysisBadge.clean
      | none => AnalysisBadge.clean }

/-- The `analysisData.forEach` loop of the batch branch: the items in order, or `none`
when the body throws for one of the records. -/
def batchItems : List AnalysisRecord → Option (List AnalysisItem)
  | [] => some []
  | file :: files =>
    match batchItem file with
    | none => none
    | some item =>
      match batchItems files with
      | none => none
      | some items => some (item :: items)

/-- `updateVideoAnalysis(analysisData)`, given the content of `#analysis-results`. The
element is emptied first; when the batch loop throws it stays empty. -/
def updateVideoAnalysis (resultsDiv : Option AnalysisContent) (analysisData : AnalysisData) :
    AnalysisRun :=
  match resultsDiv with
  | none => { resultsDiv := none, error := none }
  | some _ =>
    match analysisData with
    | AnalysisData.batch files =>
      match batchItems files with
      | some items => { resultsDiv := some (AnalysisContent.summary items), error := none }
      | none =>
        { resultsDiv := some AnalysisContent.empty
          error := some "TypeError: file.issues is undefined" }
    | AnalysisData.single record =>
      { resultsDiv := some (AnalysisContent.summary [singleItem record]), error := none }
    | AnalysisData.missing =>
      { resultsDiv := some AnalysisContent.notAvailable, error := none }

/-- The badges of the rendered items, in order, when a summary with items is shown. -/
def renderedBadges (run : AnalysisRun) : Option (List AnalysisBadge) :=
  match run.resultsDiv with
  | some (AnalysisContent.summary items) => some (items.map AnalysisItem.badge)
  | _ => none

/-! ## The guided tour: `startTour` -/

/-- A tour step: the page element it points at (`none` when the lookup finds nothing), its
title, description and popup position. Elements are named by the target of their selector. -/
structure TourStep where
  element : Option String
  title : String
  description : String
  position : String
deriving DecidableEq

/-- The array `tourSteps`, for a page on which `found` tells which targets exist. -/
def tourSteps (found : String → Bool) : List TourStep :=
  let lookup := fun (target : String) => if found target then some target else none
  [{ element := lookup "file-upload"
     title := "Step 1: Upload Videos"
     description := "Select one or more video files using the upload button or drag and drop them here. Only video files are supported."
     position := "bottom" },
   { element := lookup "watermark-text"
     title := "Step 2: Enter Watermark Text"
     description := "Type the invisible watermark message you want to embed. Keep it concise (max 50 characters)."
     position := "bottom" },
   { element := lookup "strength"
     title := "Step 3: Adjust Strength"
     description := "Adjust the embedding strength. Lower values are more invisible but less resistant to attacks. A balanced value is recommended."
     position := "top" },
   { element := lookup "toggle-processing-options"
     title := "Step 4: Advanced Options"
     description := "Click here to reveal advanced video and output settings, like compression and quality preservation."
     position := "top" },
   { element := lookup "submit"
     title := "Step 5: Start Processing"
     description := "Once everything is set, click this button to upload your files and begin the invisible watermarking process."
     position := "top" }]

/-- What the tour shows and remembers: the variable `currentStep`, the `style.display` of
the overlay, the texts of the popup, the two buttons, the element scrolled into view, the
toasts and the `hasVisited` flag of the local storage. -/
structure TourState where
  currentStep : Nat
  overlayDisplay : String
  title : String
  description : String
  currentProgress : String
  prevDisabled : Bool
  nextLabel : String
  scrolledTo : Option String
  toasts : List Toast
  hasVisited : Bool
deriving DecidableEq

/-- The outcome of a tour function: the state afterwards and the exception thrown, if any. -/
structure TourRun where
  state : TourState
  error : Option String
deriving DecidableEq

/-- `showStep(stepIndex)`. For a step without element the code logs an error and calls
`this.nextStep()`; the class has no method `nextStep` (the function of that name is a local
constant of `startTour`), so the call throws. -/
def showStep (steps : List TourStep) (t : TourState) (stepIndex : Int) : TourRun :=
  if stepIndex < 0 ∨ stepIndex ≥ steps.length then
    { state := { t with overlayDisplay := "none" }, error := none }
  else
    let t1 := { t with currentStep := stepIndex.toNat }
    match steps.get? t1.currentStep with
    | none => { state := t1, error := none }
    | some step =>
      match step.element with
      | none => { state := t1, error := some "TypeError: this.nextStep is not a function" }
      | some element =>
        { state :=
            { t1 with
              title := step.title
              description := step.description
              currentProgress := toString (t1.currentStep + 1)
              prevDisabled := decide (t1.currentStep = 0)
              nextLabel := if t1.currentStep = steps.length - 1 then "Finish" else "Next"
              overlayDisplay := "block"
              scrolledTo := some element }
          error := none }

/-- `this.endTour()`. -/
def endTour (t : TourState) : TourState :=
  { t with
    overlayDisplay := "none"
    toasts := t.toasts ++
      [{ type := "info", title := "Tour Complete",
         message := "The guided tour has finished. Happy watermarking!" }]
    hasVisited := true }

/-- The local function `nextStep` of `startTour`. -/
def nextStep (steps : List TourStep) (t : TourState) : TourRun :=
  if t.currentStep < steps.length - 1 then showStep steps t (t.currentStep + 1)
  else { state := endTour t, error := none }

/-! ## The link between the map and the list -/

/-- The processing list holds the task elements of the keys of the map, in the same
order. -/
def Consistent (s : AppState) : Prop :=
  s.processingList.map TaskElement.taskId = s.processingTasks.map Prod.fst

/-- The parts of a task element that `createProcessingTaskElement` and
`updateProcessingStatus` both derive from the stored record in the same way. -/
def rendersRecord (t : Task) (el : TaskElement) : Prop :=
  el.className = "processing-task " ++ t.status ∧
  el.statusClass = "task-status " ++ t.status ∧
  el.statusText = toUpperCase t.status ∧
  el.progressWidth = progressOrZero t.progress ∧
  el.progressText = progressLabel t.progress

/-- Every task element shows the status and the progress of its stored record. -/
def Synced (s : AppState) : Prop :=
  ∀ k t el, mapGet s.processingTasks k = some t →
    elementWithId s.processingList k = some el → rendersRecord t el

/-! ## Updates that do not conflict -/

/-- Two optional values of one field agree when at most one of them is present or both are
the same value. -/
def fieldsAgree {α : Type} [DecidableEq α] (a b : Option α) : Bool :=
  match a, b with
  | some x, some y => decide (x = y)
  | _, _ => true

/-- Two updates do not conflict when they agree on every field. -/
def compatible (u v : Update) : Bool :=
  fieldsAgree u.filename v.filename && fieldsAgree u.status v.status &&
    fieldsAgree u.progress v.progress && fieldsAgree u.output_path v.output_path

/-! ## Example inputs -/

/-- A task record with only identity, file name and status. -/
def mkTask (id filename status : String) : Task :=
  { task_id := id, filename := filename, status := status, progress := none,
    output_path := none }

/-- Scenario A of the spec: two pending tasks `t1` and `t2` registered from one upload. -/
def scenarioA : AppState :=
  showProcessingStatus initialState
    (some [mkTask "t1" "a.mp4" "pending", mkTask "t2" "b.mp4" "pending"])

/-- The push update of Scenario A. -/
def updateA : Update :=
  { task_id := "t1", status := some "completed", progress := some 100,
    output_path := some "a.mp4" }

/-- Scenario C of the spec: task `t1` has been registered and has completed. -/
def scenarioC : AppState :=
  updateProcessingStatus scenarioA updateA

/-- The stale push update of Scenario C. -/
def updateC : Update :=
  { task_id := "t1", status := some "processing" }

/-- A task that is being processed, half way through. -/
def scenarioProgress : AppState :=
  showProcessingStatus initialState
    (some [{ task_id := "t1", filename := "a.mp4", status := "processing",
             progress := some 50, output_path := none }])

/-- A `processing` update that reports less progress than is stored. -/
def updateRegress : Update :=
  { task_id := "t1", status := some "processing", progress := some 30 }

/-- A push update for a task that was never registered (Scenario B of the spec). -/
def updateB : Update :=
  { task_id := "t99", status := some "processing", progress := some 10 }

/-- A `processing` update for `t1` with progress 30. -/
def update30 : Update :=
  { task_id := "t1", status := some "processing", progress := some 30 }

/-- A `processing` update for `t1` with progress 60. -/
def update60 : Update :=
  { task_id := "t1", status := some "processing", progress := some 60 }

/-- An update for `t1` that carries only a status. -/
def updateStatusOnly : Update :=
  { task_id := "t1", status := some "processing" }

/-- An update for `t1` that carries only a progress value. -/
def updateProgressOnly : Update :=
  { task_id := "t1", progress := some 40 }

/-- A second upload response: `t1` again, with other contents, and a new task `t3`. -/
def secondUpload : List Task :=
  [{ task_id := "t1", filename := "other.mp4", status := "completed", progress := some 100,
     output_path := some "other.mp4" },
   mkTask "t3" "c.mp4" "pending"]

/-- The state after the completed task `t1` of Scenario C has received the stale
`processing` update. -/
def scenarioRegressed : AppState :=
  updateProcessingStatus scenarioC updateC

/-- Option controls as the page might hold them. -/
def sampleOptions : UploadOptions :=
  { preserve_quality := true, optimize_size := false, batch_processing := true,
    background_processing := false, auto_delete := false, generate_preview := false,
    output_format := "mp4", compression_level := "medium", strength := 1 / 10 }

/-- A form with no file chosen and a watermark text. -/
def formNoFiles : UploadForm :=
  { selected := [], watermark_text := "secret", options := sampleOptions }

/-- A form with one file and a watermark text. -/
def formReady : UploadForm :=
  { selected := ["a.mp4"], watermark_text := " secret ", options := sampleOptions }

/-- A form with one file and a watermark text of white space only. -/
def formBlankText : UploadForm :=
  { selected := ["a.mp4"], watermark_text := "  ", options := sampleOptions }

/-- A non-2xx upload response whose payload carries an error string. -/
def uploadRefused : FetchResult UploadBody :=
  FetchResult.response false (some { tasks := none, error := some "File too large" })

/-- A non-2xx upload response whose payload carries no error string. -/
def uploadRefusedSilently : FetchResult UploadBody :=
  FetchResult.response false (some { tasks := none, error := none })

/-- A non-2xx upload response whose payload carries an empty error string. -/
def uploadRefusedEmpty : FetchResult UploadBody :=
  FetchResult.response false (some { tasks := none, error := some "" })

/-- A 2xx upload response that lists one new task. -/
def uploadAccepted : FetchResult UploadBody :=
  FetchResult.response true (some { tasks := some [mkTask "t9" "z.mp4" "pending"], error := none })

/-- A watermarked file and an original file, as `GET /files` lists them. -/
def sampleFiles : List PersistedFile :=
  [{ filename := "a_wm.mp4", size := 2048, watermark_text := some "secret",
     timestamp := 1700000000, relative_path := "out/a_wm.mp4", watermarked := true },
   { filename := "a.mp4", size := 1024, watermark_text := none,
     timestamp := 1700000000, relative_path := "in/a.mp4", watermarked := false }]

/-- A state whose files container shows the table of `sampleFiles`. -/
def scenarioFiles : AppState :=
  renderFiles initialState sampleFiles

/-- A non-2xx `GET /files` response whose payload carries an error string. -/
def filesRefused : FetchResult FilesBody :=
  FetchResult.response false (some { files := none, error := some "disk unavailable" })

/-- The spec's reading of "grouped by type": once the run of a type has ended, that type
does not come back later in the list. -/
def groupedTogether : List String → Bool
  | [] => true
  | x :: xs => decide (x ∉ xs.dropWhile (fun y => decide (y = x))) && groupedTogether xs

/-- The headings of the rendered issue list, in display order (none for the paragraph
"No tampering signs detected."). -/
def renderedHeadings : IssuesView → List String
  | IssuesView.detected items => items.map IssueItem.heading
  | IssuesView.noSigns => []

/-- A report with no issues whose `fps` is present and zero. -/
def reportZeroFps : TamperReport :=
  { summary := { ok := true, issue_count := 0 }
    issues := []
    frames_analyzed := 0
    fps := some 0 }

/-- A report whose issues of type `splice` are separated by a `frame_drop` issue. -/
def reportInterleaved : TamperReport :=
  { summary := { ok := false, issue_count := 3 }
    issues := [{ type := "splice", json := "1" }, { type := "frame_drop", json := "2" },
      { type := "splice", json := "3" }]
    frames_analyzed := 120
    fps := none }

/-- An analysis record that carries no `issues` property. -/
def recordWithoutIssues : AnalysisRecord :=
  { filename := "a.mp4", resolution := "1920x1080", duration := 65, fps := 30,
    issues := none }

/-- A page on which the strength slider of the third tour step is not found. -/
def pageWithoutStrength (target : String) : Bool :=
  decide (target ≠ "strength")

/-- A page on which the submit button of the last tour step is not found. -/
def pageWithoutSubmit (target : String) : Bool :=
  decide (target ≠ "submit")

/-- The tour as `startTour` leaves it before the first `showStep`. -/
def tourStart : TourState :=
  { currentStep := 0, overlayDisplay := "none", title := "", description := "",
    currentProgress := "", prevDisabled := false, nextLabel := "", scrolledTo := none,
    toasts := [], hasVisited := false }

/-- The identifier `a"b`, which holds a double quote. -/
def quotedId : String :=
  String.mk ['a', Char.ofNat 34, 'b']

/-- A state in which a pending task with the identifier `a"b` is registered. -/
def scenarioQuoted : AppState :=
  showProcessingStatus initialState (some [mkTask quotedId "a.mp4" "pending"])

/-- A push update for the task `a"b` that reports completion. -/
def updateQuoted : Update :=
  { task_id := quotedId, status := some "completed", progress := some 100,
    output_path := some "a.mp4" }

/-- A push update for the unregistered identifier `x"y`. -/
def updateUnknownQuoted : Update :=
  { task_id := String.mk ['x', Char.ofNat 34, 'y'], status := some "processing" }

/-- A state in which the task `t1` is registered as `failed`. -/
def scenarioFailed : AppState :=
  showProcessingStatus initialState (some [mkTask "t1" "a.mp4" "failed"])

/-- A push update that repeats the status `failed` of `t1`. -/
def updateFailed : Update :=
  { task_id := "t1", status := some "failed" }

/-- A report whose summary says `ok` although two issues are listed. -/
def reportOkWithIssues : TamperReport :=
  { summary := { ok := true, issue_count := 2 }
    issues := [{ type := "frame_drop", json := "\x7b\x7d" }, { type := "re_encode", json := "\x7b\x7d" }]
    frames_analyzed := 120
    fps := some 30 }

end VideoWatermark

namespace VideoWatermark

/-! ## The map operations -/

theorem mapGet_isSome_iff (m : List (String × Task)) (k : String) :
    (mapGet m k).isSome = true ↔ k ∈ m.map Prod.fst := by
  induction m with
  | nil => simp [mapGet]
  | cons e m ih =>
    obtain ⟨k', v⟩ := e
    by_cases h : k' = k
    · simp [mapGet, h]
    · have h' : ¬ k = k' := fun e => h e.symm
      simp [mapGet, h, h', ih]

theorem mapGet_mapSet_same (m : List (String × Task)) (k : String) (v : Task) :
    mapGet (mapSet m k v) k = some v := by
  induction m with
  | nil => simp [mapSet, mapGet]
  | cons e m ih =>
    obtain ⟨k', v'⟩ := e
    by_cases h : k' = k
    · simp [mapSet, mapGet, h]
    · simp [mapSet, mapGet, h, ih]

theorem mapGet_mapSet_other (m : List (String × Task)) (k k' : String) (v : Task)
    (hk : k' ≠ k) : mapGet (mapSet m k v) k' = mapGet m k' := by
  induction m with
  | nil =>
    have h : ¬ k = k' := fun e => hk e.symm
    simp [mapSet, mapGet, h]
  | cons e m ih =>
    obtain ⟨k0, v0⟩ := e
    by_cases h : k0 = k
    · subst h
      have h' : ¬ k0 = k' := fun e => hk e.symm
      simp [mapSet, mapGet, h']
    · by_cases h2 : k0 = k'
      · subst h2
        simp [mapSet, mapGet, h]
      · simp [mapSet, mapGet, h, h2, ih]

theorem mapSet_keys_of_mem (m : List (String × Task)) (k : String) (v : Task)
    (hk : k ∈ m.map Prod.fst) : (mapSet m k v).map Prod.fst = m.map Prod.fst := by
  induction m with
  | nil => simp at hk
  | cons e m ih =>
    obtain ⟨k', v'⟩ := e
    by_cases h : k' = k
    · simp [mapSet, h]
    · have hk' : k ∈ m.map Prod.fst := by
        simp only [List.map_cons, List.mem_cons] at hk
        rcases hk with hk | hk
        · exact absurd hk.symm h
        · exact hk
      simp [mapSet, h, ih hk']

theorem mapSet_of_not_mem (m : List (String × Task)) (k : String) (v : Task)
    (hk : k ∉ m.map Prod.fst) : mapSet m k v = m ++ [(k, v)] := by
  induction m with
  | nil => simp [mapSet]
  | cons e m ih =>
    obtain ⟨k', v'⟩ := e
    simp only [List.map_cons, List.mem_cons, not_or] at hk
    have h : ¬ k' = k := fun e => hk.1 e.symm
    simp [mapSet, h, ih hk.2]

theorem mapSet_length_of_mem (m : List (String × Task)) (k : String) (v : Task)
    (hk : k ∈ m.map Prod.fst) : (mapSet m k v).length = m.length := by
  have h := congrArg List.length (mapSet_keys_of_mem m k v hk)
  simpa using h

/-! ## The task elements -/

theorem elementWithId_isSome_iff (es : List TaskElement) (id : String) :
    (elementWithId es id).isSome = true ↔ id ∈ es.map TaskElement.taskId := by
  induction es with
  | nil => simp [elementWithId]
  | cons e es ih =>
    by_cases h : e.taskId = id
    · simp [elementWithId, h]
    · have h' : ¬ id = e.taskId := fun e => h e.symm
      simp [elementWithId, h, h', ih]

theorem elementWithId_taskId (es : List TaskElement) (id : String) (e : TaskElement)
    (h : elementWithId es id = some e) : e.taskId = id := by
  induction es with
  | nil => simp [elementWithId] at h
  | cons e0 es ih =>
    by_cases h0 : e0.taskId = id
    · simp [elementWithId, h0] at h
      subst h
      exact h0
    · simp [elementWithId, h0] at h
      exact ih h

theorem replaceElement_ids (es : List TaskElement) (id : String) (e : TaskElement)
    (he : e.taskId = id) :
    (replaceElement es id e).map TaskElement.taskId = es.map TaskElement.taskId := by
  induction es with
  | nil => simp [replaceElement]
  | cons e0 es ih =>
    by_cases h0 : e0.taskId = id
    · simp [replaceElement, h0, he]
    · simp [replaceElement, h0, ih]

theorem updateTaskElement_taskId (task : Task) (el : TaskElement) :
    (updateTaskElement task el).taskId = el.taskId := by
  unfold updateTaskElement
  split <;> rfl

/-! ## What a call does to the map and to the list -/

theorem updateSafe_tasks (s : AppState) (u : Update) :
    (updateSafe s u).processingTasks =
      match mapGet s.processingTasks u.task_id, elementWithId s.processingList u.task_id with
      | some stored, some _ => mapSet s.processingTasks u.task_id (objectAssign stored u)
      | _, _ => s.processingTasks := by
  unfold updateSafe updateProcessingStatusBody
  split
  · simp only [showToast, loadFiles]
    split <;> split <;> (try split) <;> rfl
  · rfl

theorem updateSafe_list (s : AppState) (u : Update) :
    (updateSafe s u).processingList =
      match mapGet s.processingTasks u.task_id, elementWithId s.processingList u.task_id with
      | some stored, some el =>
        replaceElement s.processingList u.task_id (updateTaskElement (objectAssign stored u) el)
      | _, _ => s.processingList := by
  unfold updateSafe updateProcessingStatusBody
  split
  · simp only [showToast, loadFiles]
    split <;> split <;> (try split) <;> rfl
  · rfl

theorem updateProcessingStatusRun_of_safe (s : AppState) (u : Update)
    (h : selectorSafe u.task_id = true) :
    updateProcessingStatusRun s u = { state := updateSafe s u, error := none } := by
  simp [updateProcessingStatusRun, querySelector, h, updateSafe]

theorem updateProcessingStatusRun_of_escaped (s : AppState) (u : Update)
    (h : selectorSafe u.task_id = false) :
    updateProcessingStatusRun s u = { state := s, error := some selectorSyntaxError } := by
  simp [updateProcessingStatusRun, querySelector, h]

theorem updateProcessingStatus_of_safe (s : AppState) (u : Update)
    (h : selectorSafe u.task_id = true) : updateProcessingStatus s u = updateSafe s u := by
  rw [updateProcessingStatus, updateProcessingStatusRun_of_safe s u h]

theorem updateProcessingStatus_of_escaped (s : AppState) (u : Update)
    (h : selectorSafe u.task_id = false) : updateProcessingStatus s u = s := by
  rw [updateProcessingStatus, updateProcessingStatusRun_of_escaped s u h]

theorem updateProcessingStatus_cases (s : AppState) (u : Update) (P : AppState → Prop)
    (h1 : P (updateSafe s u)) (h2 : P s) : P (updateProcessingStatus s u) := by
  cases h : selectorSafe u.task_id
  · rw [updateProcessingStatus_of_escaped s u h]
    exact h2
  · rw [updateProcessingStatus_of_safe s u h]
    exact h1

theorem registerTask_tasks_of_has (s : AppState) (t : Task)
    (h : mapHas s.processingTasks t.task_id = true) : registerTask s t = s := by
  simp [registerTask, h]

theorem registerTask_of_not_has (s : AppState) (t : Task)
    (h : mapHas s.processingTasks t.task_id = false) :
    (registerTask s t).processingTasks = s.processingTasks ++ [(t.task_id, t)] ∧
    (registerTask s t).processingList =
      s.processingList ++ [createProcessingTaskElement t] := by
  have hk : t.task_id ∉ s.processingTasks.map Prod.fst := by
    rw [← mapGet_isSome_iff]
    simpa [mapHas] using h
  simp [registerTask, h, mapSet_of_not_mem _ _ _ hk]

/-! ## The invariant -/

theorem registerTask_consistent (s : AppState) (t : Task) (h : Consistent s) :
    Consistent (registerTask s t) := by
  cases hh : mapHas s.processingTasks t.task_id
  · obtain ⟨h1, h2⟩ := registerTask_of_not_has s t hh
    unfold Consistent at *
    rw [h1, h2]
    simp [h, createProcessingTaskElement]
  · rw [registerTask_tasks_of_has s t hh]
    exact h

theorem foldl_registerTask_consistent (ts : List Task) (s : AppState) (h : Consistent s) :
    Consistent (ts.foldl registerTask s) := by
  induction ts generalizing s with
  | nil => exact h
  | cons t ts ih => exact ih _ (registerTask_consistent s t h)

theorem showProcessingStatus_consistent (s : AppState) (tasks : Option (List Task))
    (h : Consistent s) : Consistent (showProcessingStatus s tasks) := by
  unfold showProcessingStatus showProcessingStatusRun
  split
  · exact h
  · exact h
  · have h1 : Consistent { s with statusContainerShown := true } := h
    exact foldl_registerTask_consistent _ _ h1

theorem updateSafe_consistent (s : AppState) (u : Update) (h : Consistent s) :
    Consistent (updateSafe s u) := by
  unfold Consistent at *
  rw [updateSafe_tasks, updateSafe_list]
  split
  · rename_i stored el hg hq
    have hk : u.task_id ∈ s.processingTasks.map Prod.fst := by
      rw [← mapGet_isSome_iff, hg]; rfl
    rw [mapSet_keys_of_mem _ _ _ hk, replaceElement_ids _ _ _ ?_, h]
    rw [updateTaskElement_taskId]
    exact elementWithId_taskId _ _ _ hq
  · exact h

theorem Reachable.consistent {s : AppState} (h : Reachable s) : Consistent s := by
  induction h with
  | init => rfl
  | register s tasks _ ih => exact showProcessingStatus_consistent s tasks ih
  | push s u _ ih =>
    exact updateProcessingStatus_cases s u _ (updateSafe_consistent s u ih) ih
  | tab s name _ ih => exact ih

/-! ## Merging an update into the stored record -/

theorem Consistent.elementWithId_isSome {s : AppState} (h : Consistent s) (k : String)
    (t : Task) (hg : mapGet s.processingTasks k = some t) :
    ∃ el, elementWithId s.processingList k = some el := by
  have hk : k ∈ s.processingTasks.map Prod.fst := by
    rw [← mapGet_isSome_iff, hg]; rfl
  rw [← h, ← elementWithId_isSome_iff] at hk
  exact Option.isSome_iff_exists.mp hk

theorem updateSafe_get_same (s : AppState) (u : Update) (t : Task)
    (h : Consistent s) (hg : mapGet s.processingTasks u.task_id = some t) :
    mapGet (updateSafe s u).processingTasks u.task_id = some (objectAssign t u) := by
  obtain ⟨el, hq⟩ := h.elementWithId_isSome u.task_id t hg
  rw [updateSafe_tasks, hg, hq]
  exact mapGet_mapSet_same _ _ _

theorem updateSafe_get_other (s : AppState) (u : Update) (k : String)
    (hk : k ≠ u.task_id) :
    mapGet (updateSafe s u).processingTasks k = mapGet s.processingTasks k := by
  rw [updateSafe_tasks]
  split
  · exact mapGet_mapSet_other _ _ _ _ hk
  · rfl

/-! ## The example states are reachable -/

theorem reachable_scenarioA : Reachable scenarioA :=
  Reachable.register _ _ Reachable.init

theorem reachable_scenarioC : Reachable scenarioC :=
  Reachable.push _ _ reachable_scenarioA

theorem reachable_scenarioProgress : Reachable scenarioProgress :=
  Reachable.register _ _ Reachable.init

/-! ## C1: terminal states -/

theorem updateSafe_status (s : AppState) (u : Update) (t : Task)
    (hc : Consistent s) (hg : mapGet s.processingTasks u.task_id = some t) :
    (mapGet (updateSafe s u).processingTasks u.task_id).map Task.status =
      some (match u.status with
        | some v => v
        | none => t.status) := by
  rw [updateSafe_get_same s u t hc hg]
  rfl

/-- C1, as stated, fails: in Scenario C the task `t1` is stored as `completed`, the update
carries the same `task_id` and the status `processing`, and after `updateProcessingStatus`
the stored status is `processing`. -/
theorem terminal_status_overwritten :
    Reachable scenarioC ∧
    (mapGet scenarioC.processingTasks "t1").map Task.status = some "completed" ∧
    updateC.task_id = "t1" ∧ updateC.status = some "processing" ∧
    (mapGet (updateProcessingStatus scenarioC updateC).processingTasks "t1").map Task.status
      = some "processing" :=
  ⟨reachable_scenarioC, by decide, rfl, rfl, by decide⟩

/-- C1, amended: the status is merged last-writer-wins, from a terminal state as from any
other. For a registered task and an update with its `task_id`, when the `task_id` needs no
escaping in the selector (it holds no double quote, backslash, line break or null
character), the call returns and the stored status afterwards is the status of the update
when it carries one, and the old status when it carries none. -/
theorem updateProcessingStatus_status (s : AppState) (u : Update) (t : Task)
    (hs : Reachable s) (hg : mapGet s.processingTasks u.task_id = some t)
    (hsafe : selectorSafe u.task_id = true) :
    (updateProcessingStatusRun s u).error = none ∧
    (mapGet (updateProcessingStatus s u).processingTasks u.task_id).map Task.status =
      some (match u.status with
        | some v => v
        | none => t.status) := by
  rw [updateProcessingStatus_of_safe s u hsafe, updateProcessingStatusRun_of_safe s u hsafe]
  exact ⟨rfl, updateSafe_status s u t hs.consistent hg⟩

/-- C1, amended, at Scenario C: the completed task `t1` becomes `processing`. -/
theorem updateProcessingStatus_status_scenarioC :
    (updateProcessingStatusRun scenarioC updateC).error = none ∧
    (mapGet (updateProcessingStatus scenarioC updateC).processingTasks updateC.task_id).map
        Task.status = some "processing" :=
  updateProcessingStatus_status scenarioC updateC
    { task_id := "t1", filename := "a.mp4", status := "completed", progress := some 100,
      output_path := some "a.mp4" }
    reachable_scenarioC (by decide) (by decide)

/-! ## C3: the status label of a tamper report -/

/-- C3, as stated, fails: for the report with `ok = true`, `issue_count = 2` and two listed
issues, `showTamperReport` renders the status `OK`, not `TAMPERED`. -/
theorem report_status_ignores_issue_count :
    reportOkWithIssues.summary.ok = true ∧
    reportOkWithIssues.summary.issue_count = 2 ∧
    reportOkWithIssues.issues.length = 2 ∧
    (showTamperReport "a.mp4" reportOkWithIssues).status = "OK" ∧
    (showTamperReport "a.mp4" reportOkWithIssues).status ≠ "TAMPERED" :=
  ⟨rfl, rfl, rfl, by decide, by decide⟩

/-- C3, amended: the status label follows `summary.ok` alone. `showTamperReport` renders
`OK` when `summary.ok` is true and `TAMPERED` when it is false, whatever `issue_count` and
`issues` are, and shows `issue_count` as given. -/
theorem showTamperReport_status (filename : String) (report : TamperReport) :
    (showTamperReport filename report).status =
        (if report.summary.ok = true then "OK" else "TAMPERED") ∧
    (showTamperReport filename report).issueCount = report.summary.issue_count := by
  constructor <;> rfl

/-! ## C4: an update for an unknown task -/

theorem updateSafe_unknown (s : AppState) (u : Update)
    (h : mapHas s.processingTasks u.task_id = false) : updateSafe s u = s := by
  have hn : mapGet s.processingTasks u.task_id = none := by
    simpa [mapHas] using h
  unfold updateSafe updateProcessingStatusBody
  rw [hn]

theorem updateProcessingStatus_unknown_state (s : AppState) (u : Update)
    (h : mapHas s.processingTasks u.task_id = false) : updateProcessingStatus s u = s :=
  updateProcessingStatus_cases s u (fun x => x = s) (updateSafe_unknown s u h) rfl

/-- C4, as stated, fails: the identifier `x"y` is not a key of the map of Scenario A, and
the call for it does not return without error: it throws a `SyntaxError` (the state is
left as it was). -/
theorem unknown_update_throws :
    mapHas scenarioA.processingTasks updateUnknownQuoted.task_id = false ∧
    (updateProcessingStatusRun scenarioA updateUnknownQuoted).error
      = some selectorSyntaxError ∧
    (updateProcessingStatusRun scenarioA updateUnknownQuoted).error ≠ none ∧
    updateProcessingStatus scenarioA updateUnknownQuoted = scenarioA :=
  ⟨by decide, by decide, by decide,
    updateProcessingStatus_unknown_state scenarioA updateUnknownQuoted (by decide)⟩

/-- C4, amended: when the `task_id` of an update is not a key of `processingTasks`,
`updateProcessingStatus` leaves the state it was given: the map has the same size and the
same entries, and the processing list has the same elements (none is created). The call
returns without error when the `task_id` needs no escaping in the selector (it holds no
double quote, backslash, line break or null character). -/
theorem updateProcessingStatus_unknown (s : AppState) (u : Update)
    (h : mapHas s.processingTasks u.task_id = false) :
    updateProcessingStatus s u = s ∧
    (updateProcessingStatus s u).processingTasks.length = s.processingTasks.length ∧
    (∀ k, mapGet (updateProcessingStatus s u).processingTasks k = mapGet s.processingTasks k) ∧
    (updateProcessingStatus s u).processingList = s.processingList ∧
    (selectorSafe u.task_id = true → (updateProcessingStatusRun s u).error = none) := by
  have he := updateProcessingStatus_unknown_state s u h
  rw [he]
  refine ⟨rfl, rfl, fun _ => rfl, rfl, fun hsafe => ?_⟩
  rw [updateProcessingStatusRun_of_safe s u hsafe]

/-- C4, amended, at Scenario B: `t99` was never registered and the call returns. -/
theorem updateProcessingStatus_unknown_scenarioB :
    mapHas scenarioA.processingTasks updateB.task_id = false ∧
    updateProcessingStatus scenarioA updateB = scenarioA ∧
    (updateProcessingStatusRun scenarioA updateB).error = none :=
  ⟨by decide, (updateProcessingStatus_unknown scenarioA updateB (by decide)).1,
    (updateProcessingStatus_unknown scenarioA updateB (by decide)).2.2.2.2 (by decide)⟩

/-! ## C6: progress while processing -/

theorem updateSafe_progress (s : AppState) (u : Update) (t : Task)
    (hc : Consistent s) (hg : mapGet s.processingTasks u.task_id = some t) :
    (mapGet (updateSafe s u).processingTasks u.task_id).map Task.progress =
      some (match u.progress with
        | some q => some q
        | none => t.progress) := by
  rw [updateSafe_get_same s u t hc hg]
  rfl

/-- C6, as stated, fails: the task `t1` is stored as `processing` with progress 50, the
update is a `processing` update with progress 30 < 50, and after
`updateProcessingStatus` the stored progress is 30. -/
theorem progress_regresses :
    Reachable scenarioProgress ∧
    (mapGet scenarioProgress.processingTasks "t1").map Task.status = some "processing" ∧
    (mapGet scenarioProgress.processingTasks "t1").map Task.progress = some (some 50) ∧
    updateRegress.task_id = "t1" ∧ updateRegress.status = some "processing" ∧
    updateRegress.progress = some 30 ∧ (30 : Rat) < 50 ∧
    (mapGet (updateProcessingStatus scenarioProgress updateRegress).processingTasks "t1").map
      Task.progress = some (some 30) :=
  ⟨reachable_scenarioProgress, by decide, by decide, rfl, rfl, rfl, by norm_num, by decide⟩

/-- C6, amended: the progress is merged last-writer-wins, with no guard against a lower
value. For a registered task and an update with its `task_id`, when the `task_id` needs no
escaping in the selector (it holds no double quote, backslash, line break or null
character), the call returns and the stored progress afterwards is the progress of the
update when it carries one (lower or not), and the old progress when it carries none. -/
theorem updateProcessingStatus_progress (s : AppState) (u : Update) (t : Task)
    (hs : Reachable s) (hg : mapGet s.processingTasks u.task_id = some t)
    (hsafe : selectorSafe u.task_id = true) :
    (updateProcessingStatusRun s u).error = none ∧
    (mapGet (updateProcessingStatus s u).processingTasks u.task_id).map Task.progress =
      some (match u.progress with
        | some q => some q
        | none => t.progress) := by
  rw [updateProcessingStatus_of_safe s u hsafe, updateProcessingStatusRun_of_safe s u hsafe]
  exact ⟨rfl, updateSafe_progress s u t hs.consistent hg⟩

/-- C6, amended, at the example: the stored progress 50 becomes 30. -/
theorem updateProcessingStatus_progress_example :
    (updateProcessingStatusRun scenarioProgress updateRegress).error = none ∧
    (mapGet (updateProcessingStatus scenarioProgress updateRegress).processingTasks
        updateRegress.task_id).map Task.progress = some (some 30) :=
  updateProcessingStatus_progress scenarioProgress updateRegress
    { task_id := "t1", filename := "a.mp4", status := "processing", progress := some 50,
      output_path := none }
    reachable_scenarioProgress (by decide) (by decide)

/-! ## C7: an update is local to its task -/

theorem elementWithId_replaceElement_other (es : List TaskElement) (id k : String)
    (e : TaskElement) (he : e.taskId = id) (hk : k ≠ id) :
    elementWithId (replaceElement es id e) k = elementWithId es k := by
  induction es with
  | nil => simp [replaceElement]
  | cons e0 es ih =>
    by_cases h0 : e0.taskId = id
    · have h1 : ¬ e0.taskId = k := fun h => hk (h.symm.trans h0)
      have h2 : ¬ e.taskId = k := fun h => hk (h.symm.trans he)
      have h3 : ¬ id = k := fun h => hk h.symm
      simp [replaceElement, elementWithId, h0, h1, h2, h3]
    · by_cases h1 : e0.taskId = k
      · have h3 : ¬ k = id := hk
        simp [replaceElement, elementWithId, h0, h1, h3]
      · simp [replaceElement, elementWithId, h0, h1, ih]

theorem updateSafe_element_other (s : AppState) (u : Update) (k : String)
    (hk : k ≠ u.task_id) :
    elementWithId (updateSafe s u).processingList k
      = elementWithId s.processingList k := by
  rw [updateSafe_list]
  split
  · rename_i stored el hg hq
    apply elementWithId_replaceElement_other _ _ _ _ _ hk
    rw [updateTaskElement_taskId]
    exact elementWithId_taskId _ _ _ hq
  · rfl

theorem updateSafe_local (s : AppState) (u : Update) (t : Task)
    (hc : Consistent s) (hg : mapGet s.processingTasks u.task_id = some t) :
    (∃ t', mapGet (updateSafe s u).processingTasks u.task_id = some t' ∧
      t'.task_id = u.task_id ∧
      (∀ v, u.filename = some v → t'.filename = v) ∧
      (u.filename = none → t'.filename = t.filename) ∧
      (∀ v, u.status = some v → t'.status = v) ∧
      (u.status = none → t'.status = t.status) ∧
      (∀ v, u.progress = some v → t'.progress = some v) ∧
      (u.progress = none → t'.progress = t.progress) ∧
      (∀ v, u.output_path = some v → t'.output_path = some v) ∧
      (u.output_path = none → t'.output_path = t.output_path)) ∧
    (∀ k, k ≠ u.task_id →
      mapGet (updateSafe s u).processingTasks k = mapGet s.processingTasks k ∧
      elementWithId (updateSafe s u).processingList k
        = elementWithId s.processingList k) := by
  refine ⟨⟨objectAssign t u, updateSafe_get_same s u t hc hg, rfl,
    ?_, ?_, ?_, ?_, ?_, ?_, ?_, ?_⟩, fun k hk =>
      ⟨updateSafe_get_other s u k hk,
        updateSafe_element_other s u k hk⟩⟩
  all_goals
    intros
    simp_all [objectAssign]

/-- C7, as stated, fails: the task with the identifier `a"b` is registered as `pending`
and the update carries that identifier and the status `completed`; the call throws a
`SyntaxError` at the selector, and the stored record keeps the status `pending`: it does
not carry the fields of the update. -/
theorem update_dropped_for_quoted_id :
    Reachable scenarioQuoted ∧
    mapGet scenarioQuoted.processingTasks updateQuoted.task_id
      = some (mkTask quotedId "a.mp4" "pending") ∧
    updateQuoted.status = some "completed" ∧
    (updateProcessingStatusRun scenarioQuoted updateQuoted).error
      = some selectorSyntaxError ∧
    (mapGet (updateProcessingStatus scenarioQuoted updateQuoted).processingTasks
      updateQuoted.task_id).map Task.status = some "pending" :=
  ⟨Reachable.register _ _ Reachable.init, by decide, rfl, by decide, by decide⟩

/-- C7, amended: for a registered task and an update with its `task_id`, when the `task_id`
needs no escaping in the selector (it holds no double quote, backslash, line break or null
character), the
call returns, the stored record of that task afterwards carries every field of the update
and keeps the old value of every field the update does not mention, and for every other
`task_id` both the stored record and the task element are what they were. -/
theorem updateProcessingStatus_local (s : AppState) (u : Update) (t : Task)
    (hs : Reachable s) (hg : mapGet s.processingTasks u.task_id = some t)
    (hsafe : selectorSafe u.task_id = true) :
    (updateProcessingStatusRun s u).error = none ∧
    (∃ t', mapGet (updateProcessingStatus s u).processingTasks u.task_id = some t' ∧
      t'.task_id = u.task_id ∧
      (∀ v, u.filename = some v → t'.filename = v) ∧
      (u.filename = none → t'.filename = t.filename) ∧
      (∀ v, u.status = some v → t'.status = v) ∧
      (u.status = none → t'.status = t.status) ∧
      (∀ v, u.progress = some v → t'.progress = some v) ∧
      (u.progress = none → t'.progress = t.progress) ∧
      (∀ v, u.output_path = some v → t'.output_path = some v) ∧
      (u.output_path = none → t'.output_path = t.output_path)) ∧
    (∀ k, k ≠ u.task_id →
      mapGet (updateProcessingStatus s u).processingTasks k = mapGet s.processingTasks k ∧
      elementWithId (updateProcessingStatus s u).processingList k
        = elementWithId s.processingList k) := by
  rw [updateProcessingStatus_of_safe s u hsafe, updateProcessingStatusRun_of_safe s u hsafe]
  exact ⟨rfl, updateSafe_local s u t hs.consistent hg⟩

/-- C7, amended, at Scenario A: after the update for `t1`, the record of `t1` is
`completed` with progress 100 and output path `a.mp4`, and `t2` is still `pending`. -/
theorem updateProcessingStatus_local_scenarioA :
    (Reachable scenarioA ∧
      mapGet scenarioA.processingTasks updateA.task_id
        = some (mkTask "t1" "a.mp4" "pending") ∧
      selectorSafe updateA.task_id = true) ∧
    ((updateProcessingStatusRun scenarioA updateA).error = none ∧
    (∃ t', mapGet (updateProcessingStatus scenarioA updateA).processingTasks updateA.task_id
          = some t' ∧
      t'.task_id = updateA.task_id ∧
      (∀ v, updateA.filename = some v → t'.filename = v) ∧
      (updateA.filename = none → t'.filename = (mkTask "t1" "a.mp4" "pending").filename) ∧
      (∀ v, updateA.status = some v → t'.status = v) ∧
      (updateA.status = none → t'.status = (mkTask "t1" "a.mp4" "pending").status) ∧
      (∀ v, updateA.progress = some v → t'.progress = some v) ∧
      (updateA.progress = none → t'.progress = (mkTask "t1" "a.mp4" "pending").progress) ∧
      (∀ v, updateA.output_path = some v → t'.output_path = some v) ∧
      (updateA.output_path = none →
        t'.output_path = (mkTask "t1" "a.mp4" "pending").output_path)) ∧
    (∀ k, k ≠ updateA.task_id →
      mapGet (updateProcessingStatus scenarioA updateA).processingTasks k
        = mapGet scenarioA.processingTasks k ∧
      elementWithId (updateProcessingStatus scenarioA updateA).processingList k
        = elementWithId scenarioA.processingList k)) ∧
    (mapGet (updateProcessingStatus scenarioA updateA).processingTasks "t1" =
      some { task_id := "t1", filename := "a.mp4", status := "completed",
             progress := some 100, output_path := some "a.mp4" } ∧
    mapGet (updateProcessingStatus scenarioA updateA).processingTasks "t2" =
      some (mkTask "t2" "b.mp4" "pending")) :=
  ⟨⟨reachable_scenarioA, by decide, by decide⟩,
    updateProcessingStatus_local scenarioA updateA (mkTask "t1" "a.mp4" "pending")
      reachable_scenarioA (by decide) (by decide),
    ⟨by decide, by decide⟩⟩

/-! ## C8: the same update twice -/

theorem objectAssign_idem (t : Task) (u : Update) :
    objectAssign (objectAssign t u) u = objectAssign t u := by
  unfold objectAssign
  cases u.filename <;> cases u.status <;> cases u.progress <;> cases u.output_path <;> rfl

theorem mapSet_mapSet (m : List (String × Task)) (k : String) (v w : Task) :
    mapSet (mapSet m k v) k w = mapSet m k w := by
  induction m with
  | nil => simp [mapSet]
  | cons e m ih =>
    obtain ⟨k', v'⟩ := e
    by_cases h : k' = k
    · simp [mapSet, h]
    · simp [mapSet, h, ih]

theorem elementWithId_replaceElement_same (es : List TaskElement) (id : String)
    (e e' : TaskElement) (he : e'.taskId = id) (hq : elementWithId es id = some e) :
    elementWithId (replaceElement es id e') id = some e' := by
  induction es with
  | nil => simp [elementWithId] at hq
  | cons e0 es ih =>
    by_cases h0 : e0.taskId = id
    · simp [replaceElement, elementWithId, h0, he]
    · simp only [elementWithId, h0, if_false] at hq
      simp [replaceElement, elementWithId, h0, ih hq]

theorem updateSafe_idempotent (s : AppState) (u : Update) :
    (updateSafe (updateSafe s u) u).processingTasks =
      (updateSafe s u).processingTasks := by
  rw [updateSafe_tasks (updateSafe s u) u,
    updateSafe_tasks s u, updateSafe_list s u]
  cases hg : mapGet s.processingTasks u.task_id with
  | none => simp [hg]
  | some t =>
    cases hq : elementWithId s.processingList u.task_id with
    | none => simp [hg, hq]
    | some el =>
      have he : (updateTaskElement (objectAssign t u) el).taskId = u.task_id := by
        rw [updateTaskElement_taskId]
        exact elementWithId_taskId _ _ _ hq
      simp only [mapGet_mapSet_same,
        elementWithId_replaceElement_same _ _ el _ he hq, objectAssign_idem, mapSet_mapSet]

/-- C8: applying the same update twice in a row through `updateProcessingStatus` leaves
the map `processingTasks` as one application leaves it, from every state. -/
theorem updateProcessingStatus_idempotent (s : AppState) (u : Update) :
    (updateProcessingStatus (updateProcessingStatus s u) u).processingTasks =
      (updateProcessingStatus s u).processingTasks := by
  cases h : selectorSafe u.task_id
  · rw [updateProcessingStatus_of_escaped s u h, updateProcessingStatus_of_escaped s u h]
  · rw [updateProcessingStatus_of_safe s u h, updateProcessingStatus_of_safe _ u h]
    exact updateSafe_idempotent s u

/-! ## C2: the order of updates -/

theorem fieldsAgree_comm {α : Type} [DecidableEq α] (a b : Option α) :
    fieldsAgree a b = fieldsAgree b a := by
  cases a <;> cases b <;> simp [fieldsAgree, eq_comm]

theorem compatible_comm (u v : Update) : compatible u v = compatible v u := by
  simp only [compatible, fieldsAgree_comm u.filename, fieldsAgree_comm u.status,
    fieldsAgree_comm u.progress, fieldsAgree_comm u.output_path]

theorem objectAssign_eq (t : Task) (u : Update) :
    objectAssign t u =
      { task_id := u.task_id
        filename := u.filename.getD t.filename
        status := u.status.getD t.status
        progress := u.progress.or t.progress
        output_path := u.output_path.or t.output_path } := by
  unfold objectAssign
  cases u.filename <;> cases u.status <;> cases u.progress <;> cases u.output_path <;> rfl

theorem fieldsAgree_getD {α : Type} [DecidableEq α] (a b : Option α) (x : α)
    (h : fieldsAgree a b = true) : b.getD (a.getD x) = a.getD (b.getD x) := by
  cases a with
  | none => rfl
  | some p =>
    cases b with
    | none => rfl
    | some q =>
      simp only [fieldsAgree, decide_eq_true_eq] at h
      simp [h]

theorem fieldsAgree_or {α : Type} [DecidableEq α] (a b x : Option α)
    (h : fieldsAgree a b = true) : b.or (a.or x) = a.or (b.or x) := by
  cases a with
  | none => cases b <;> rfl
  | some p =>
    cases b with
    | none => rfl
    | some q =>
      simp only [fieldsAgree, decide_eq_true_eq] at h
      simp [h]

theorem objectAssign_comm (t : Task) (u v : Update) (hid : u.task_id = v.task_id)
    (h : compatible u v = true) :
    objectAssign (objectAssign t u) v = objectAssign (objectAssign t v) u := by
  simp only [compatible, Bool.and_eq_true] at h
  obtain ⟨⟨⟨h1, h2⟩, h3⟩, h4⟩ := h
  simp only [objectAssign_eq, hid, fieldsAgree_getD _ _ _ h1, fieldsAgree_getD _ _ _ h2,
    fieldsAgree_or _ _ _ h3, fieldsAgree_or _ _ _ h4]

theorem foldl_updateSafe_get (l : List Update) (s : AppState) (t : Task)
    (k : String) (h : Consistent s) (hg : mapGet s.processingTasks k = some t)
    (hid : ∀ u ∈ l, u.task_id = k) :
    mapGet (l.foldl updateSafe s).processingTasks k
      = some (l.foldl objectAssign t) := by
  induction l generalizing s t with
  | nil => exact hg
  | cons u l ih =>
    have hu : u.task_id = k := hid u (List.mem_cons_self _ _)
    subst hu
    simp only [List.foldl_cons]
    exact ih _ _ (updateSafe_consistent s u h)
      (updateSafe_get_same s u t h hg)
      (fun w hw => hid w (List.mem_cons_of_mem _ hw))

theorem updateSafe_order (s : AppState) (k : String) (t : Task)
    (l₁ l₂ : List Update) (hc0 : Consistent s) (hg : mapGet s.processingTasks k = some t)
    (hid : ∀ u ∈ l₁, u.task_id = k)
    (hc : l₁.Pairwise (fun u v => compatible u v = true)) (hp : l₁.Perm l₂) :
    mapGet (l₁.foldl updateSafe s).processingTasks k =
      mapGet (l₂.foldl updateSafe s).processingTasks k := by
  have hid₂ : ∀ u ∈ l₂, u.task_id = k := fun u hu => hid u (hp.mem_iff.mpr hu)
  rw [foldl_updateSafe_get l₁ s t k hc0 hg hid,
    foldl_updateSafe_get l₂ s t k hc0 hg hid₂]
  congr 1
  apply hp.foldl_eq'
  intro x hx y hy z
  by_cases hxy : x = y
  · rw [hxy]
  · have hsym : Symmetric (fun u v : Update => compatible u v = true) := by
      intro a b hab
      rw [compatible_comm]
      exact hab
    exact objectAssign_comm z x y ((hid x hx).trans (hid y hy).symm) (hc.forall hsym hx hy hxy)

theorem foldl_updateProcessingStatus_of_safe (l : List Update) (s : AppState) (k : String)
    (hsafe : selectorSafe k = true) (hid : ∀ u ∈ l, u.task_id = k) :
    l.foldl updateProcessingStatus s = l.foldl updateSafe s := by
  induction l generalizing s with
  | nil => rfl
  | cons u l ih =>
    have hu : u.task_id = k := hid u (List.mem_cons_self _ _)
    simp only [List.foldl_cons]
    rw [updateProcessingStatus_of_safe s u (hu ▸ hsafe)]
    exact ih _ (fun w hw => hid w (List.mem_cons_of_mem _ hw))

theorem foldl_updateProcessingStatus_of_escaped (l : List Update) (s : AppState) (k : String)
    (hsafe : selectorSafe k = false) (hid : ∀ u ∈ l, u.task_id = k) :
    l.foldl updateProcessingStatus s = s := by
  induction l generalizing s with
  | nil => rfl
  | cons u l ih =>
    have hu : u.task_id = k := hid u (List.mem_cons_self _ _)
    simp only [List.foldl_cons]
    rw [updateProcessingStatus_of_escaped s u (hu ▸ hsafe)]
    exact ih _ (fun w hw => hid w (List.mem_cons_of_mem _ hw))

/-- C2, as stated, fails: for the registered task `t1` of Scenario A and the two
`processing` updates with progress 30 and 60, the order 30, 60 leaves progress 60 and the
order 60, 30 leaves progress 30, so the two stored records differ. -/
theorem update_order_matters :
    Reachable scenarioA ∧
    mapHas scenarioA.processingTasks "t1" = true ∧
    update30.task_id = "t1" ∧ update60.task_id = "t1" ∧
    List.Perm [update30, update60] [update60, update30] ∧
    (mapGet ([update30, update60].foldl updateProcessingStatus scenarioA).processingTasks
      "t1").map Task.progress = some (some 60) ∧
    (mapGet ([update60, update30].foldl updateProcessingStatus scenarioA).processingTasks
      "t1").map Task.progress = some (some 30) ∧
    mapGet ([update30, update60].foldl updateProcessingStatus scenarioA).processingTasks "t1"
      ≠ mapGet ([update60, update30].foldl updateProcessingStatus scenarioA).processingTasks
        "t1" :=
  ⟨reachable_scenarioA, by decide, rfl, rfl, List.Perm.swap _ _ _, by decide, by decide,
    by decide⟩

/-- C2, amended: for a registered task and a finite collection of updates with its
`task_id` in which no two updates carry different values for the same field, applying the
updates through `updateProcessingStatus` in any two orders yields the same stored record,
namely the record with all updates merged in. -/
theorem updateProcessingStatus_order (s : AppState) (k : String) (t : Task)
    (l₁ l₂ : List Update) (hs : Reachable s) (hg : mapGet s.processingTasks k = some t)
    (hid : ∀ u ∈ l₁, u.task_id = k)
    (hc : l₁.Pairwise (fun u v => compatible u v = true)) (hp : l₁.Perm l₂) :
    mapGet (l₁.foldl updateProcessingStatus s).processingTasks k =
      mapGet (l₂.foldl updateProcessingStatus s).processingTasks k := by
  have hid₂ : ∀ u ∈ l₂, u.task_id = k := fun u hu => hid u (hp.mem_iff.mpr hu)
  cases hsafe : selectorSafe k
  · rw [foldl_updateProcessingStatus_of_escaped l₁ s k hsafe hid,
      foldl_updateProcessingStatus_of_escaped l₂ s k hsafe hid₂]
  · rw [foldl_updateProcessingStatus_of_safe l₁ s k hsafe hid,
      foldl_updateProcessingStatus_of_safe l₂ s k hsafe hid₂]
    exact updateSafe_order s k t l₁ l₂ hs.consistent hg hid hc hp

/-- C2, amended, at an example: a status-only and a progress-only update for `t1`. -/
theorem updateProcessingStatus_order_example :
    mapGet ([updateStatusOnly, updateProgressOnly].foldl updateProcessingStatus
        scenarioA).processingTasks "t1" =
      mapGet ([updateProgressOnly, updateStatusOnly].foldl updateProcessingStatus
        scenarioA).processingTasks "t1" :=
  updateProcessingStatus_order scenarioA "t1" (mkTask "t1" "a.mp4" "pending")
    [updateStatusOnly, updateProgressOnly] [updateProgressOnly, updateStatusOnly]
    reachable_scenarioA (by decide) (by decide) (by decide) (List.Perm.swap _ _ _)

/-! ## C5: registration never overwrites -/

theorem registerTask_get_other (s : AppState) (t : Task) (k : String) (hk : k ≠ t.task_id) :
    mapGet (registerTask s t).processingTasks k = mapGet s.processingTasks k := by
  unfold registerTask
  split
  · rfl
  · exact mapGet_mapSet_other _ _ _ _ hk

theorem registerTask_get_present (s : AppState) (t : Task) (k : String)
    (hk : mapHas s.processingTasks k = true) :
    mapGet (registerTask s t).processingTasks k = mapGet s.processingTasks k := by
  by_cases h : k = t.task_id
  · subst h
    rw [registerTask_tasks_of_has s t hk]
  · exact registerTask_get_other s t k h

theorem registerTask_get_absent (s : AppState) (t : Task)
    (hk : mapHas s.processingTasks t.task_id = false) :
    mapGet (registerTask s t).processingTasks t.task_id = some t := by
  simp only [registerTask, hk]
  exact mapGet_mapSet_same _ _ _

theorem registerTask_filter_present (s : AppState) (t : Task) (k : String)
    (hk : mapHas s.processingTasks k = true) :
    (registerTask s t).processingList.filter (fun e => decide (e.taskId = k)) =
      s.processingList.filter (fun e => decide (e.taskId = k)) := by
  cases hh : mapHas s.processingTasks t.task_id
  · have hne : ¬ t.task_id = k := by
      intro e
      rw [e, hk] at hh
      exact Bool.noConfusion hh
    rw [(registerTask_of_not_has s t hh).2]
    simp [createProcessingTaskElement, hne]
  · rw [registerTask_tasks_of_has s t hh]

theorem foldl_registerTask_present (ts : List Task) (s : AppState) (k : String)
    (hk : mapHas s.processingTasks k = true) :
    mapGet (ts.foldl registerTask s).processingTasks k = mapGet s.processingTasks k ∧
    (ts.foldl registerTask s).processingList.filter (fun e => decide (e.taskId = k)) =
      s.processingList.filter (fun e => decide (e.taskId = k)) := by
  induction ts generalizing s with
  | nil => exact ⟨rfl, rfl⟩
  | cons t ts ih =>
    have h1 := registerTask_get_present s t k hk
    have h2 := registerTask_filter_present s t k hk
    have hk' : mapHas (registerTask s t).processingTasks k = true := by
      unfold mapHas at *
      rw [h1]
      exact hk
    obtain ⟨i1, i2⟩ := ih (registerTask s t) hk'
    simp only [List.foldl_cons]
    exact ⟨i1.trans h1, i2.trans h2⟩

theorem foldl_registerTask_absent (ts : List Task) (s : AppState) (t : Task)
    (hk : mapHas s.processingTasks t.task_id = false)
    (hf : ts.find? (fun x => decide (x.task_id = t.task_id)) = some t) :
    mapGet (ts.foldl registerTask s).processingTasks t.task_id = some t := by
  induction ts generalizing s with
  | nil => simp at hf
  | cons t0 ts ih =>
    simp only [List.foldl_cons]
    by_cases h0 : t0.task_id = t.task_id
    · have e : t0 = t := by simpa [List.find?, h0] using hf
      subst e
      have hg := registerTask_get_absent s t0 hk
      have hp : mapHas (registerTask s t0).processingTasks t0.task_id = true := by
        simp [mapHas, hg]
      rw [(foldl_registerTask_present ts _ _ hp).1]
      exact hg
    · have hf' : ts.find? (fun x => decide (x.task_id = t.task_id)) = some t := by
        simpa [List.find?, h0] using hf
      have hk' : mapHas (registerTask s t0).processingTasks t.task_id = false := by
        unfold mapHas at *
        rw [registerTask_get_other s t0 t.task_id (fun e => h0 e.symm)]
        exact hk
      exact ih _ hk' hf'

theorem showProcessingStatus_eq_foldl (s : AppState) (ts : List Task) :
    (showProcessingStatus s (some ts)).processingTasks =
        (ts.foldl registerTask s).processingTasks ∧
    (showProcessingStatus s (some ts)).processingList =
        (ts.foldl registerTask s).processingList := by
  cases ts with
  | nil => exact ⟨rfl, rfl⟩
  | cons t ts =>
    have key : ∀ (l : List Task) (a : AppState),
        (l.foldl registerTask { a with statusContainerShown := true }).processingTasks
          = (l.foldl registerTask a).processingTasks ∧
        (l.foldl registerTask { a with statusContainerShown := true }).processingList
          = (l.foldl registerTask a).processingList := by
      intro l
      induction l with
      | nil => intro a; exact ⟨rfl, rfl⟩
      | cons x l ih =>
        intro a
        simp only [List.foldl_cons]
        have hx : registerTask { a with statusContainerShown := true } x =
            { registerTask a x with statusContainerShown := true } := by
          unfold registerTask
          split <;> rfl
        rw [hx]
        exact ih _
    exact key (t :: ts) s

/-- C5: `showProcessingStatus` never overwrites. For a `task_id` that is already a key of
`processingTasks`, the stored record after the call is the one stored before and the
processing list has the same elements for that `task_id` (none is appended); for a
`task_id` that is not yet a key, the first record of the response with that `task_id` is
stored under it. -/
theorem showProcessingStatus_never_overwrites (s : AppState) (tasks : List Task) :
    (∀ k, mapHas s.processingTasks k = true →
      mapGet (showProcessingStatus s (some tasks)).processingTasks k
        = mapGet s.processingTasks k ∧
      (showProcessingStatus s (some tasks)).processingList.filter
          (fun e => decide (e.taskId = k))
        = s.processingList.filter (fun e => decide (e.taskId = k))) ∧
    (∀ t, mapHas s.processingTasks t.task_id = false →
      tasks.find? (fun x => decide (x.task_id = t.task_id)) = some t →
      mapGet (showProcessingStatus s (some tasks)).processingTasks t.task_id = some t) := by
  obtain ⟨e1, e2⟩ := showProcessingStatus_eq_foldl s tasks
  rw [e1, e2]
  exact ⟨fun k hk => foldl_registerTask_present tasks s k hk,
    fun t hk hf => foldl_registerTask_absent tasks s t hk hf⟩

/-- C5 at an example: a second upload that names `t1` again leaves the pending record of
`t1` and its single element alone, and stores the new task `t3`. -/
theorem showProcessingStatus_never_overwrites_example :
    (mapGet (showProcessingStatus scenarioA (some secondUpload)).processingTasks "t1"
        = mapGet scenarioA.processingTasks "t1" ∧
      (showProcessingStatus scenarioA (some secondUpload)).processingList.filter
          (fun e => decide (e.taskId = "t1"))
        = scenarioA.processingList.filter (fun e => decide (e.taskId = "t1"))) ∧
    mapGet (showProcessingStatus scenarioA (some secondUpload)).processingTasks "t3"
      = some (mkTask "t3" "c.mp4" "pending") :=
  ⟨(showProcessingStatus_never_overwrites scenarioA secondUpload).1 "t1" (by decide),
    (showProcessingStatus_never_overwrites scenarioA secondUpload).2
      (mkTask "t3" "c.mp4" "pending") (by decide) (by decide)⟩

/-! ## C9: the number of entries and elements after registration -/

theorem foldl_registerTask_fresh (ts : List Task) (s : AppState)
    (hd : (ts.map Task.task_id).Nodup)
    (hf : ∀ t ∈ ts, mapHas s.processingTasks t.task_id = false) :
    (ts.foldl registerTask s).processingTasks
      = s.processingTasks ++ ts.map (fun t => (t.task_id, t)) ∧
    (ts.foldl registerTask s).processingList
      = s.processingList ++ ts.map createProcessingTaskElement := by
  induction ts generalizing s with
  | nil => simp
  | cons t ts ih =>
    simp only [List.map_cons, List.nodup_cons] at hd
    obtain ⟨hnot, hd'⟩ := hd
    have ht : mapHas s.processingTasks t.task_id = false := hf t (List.mem_cons_self _ _)
    obtain ⟨r1, r2⟩ := registerTask_of_not_has s t ht
    have hf' : ∀ x ∈ ts, mapHas (registerTask s t).processingTasks x.task_id = false := by
      intro x hx
      have hne : x.task_id ≠ t.task_id := by
        intro e
        exact hnot (e ▸ List.mem_map_of_mem Task.task_id hx)
      unfold mapHas
      rw [registerTask_get_other s t x.task_id hne]
      exact hf x (List.mem_cons_of_mem _ hx)
    obtain ⟨i1, i2⟩ := ih (registerTask s t) hd' hf'
    simp only [List.foldl_cons, List.map_cons]
    rw [i1, i2, r1, r2]
    simp

/-- C9: starting from an empty registry, an upload response of N task records with
pairwise distinct `task_id` leaves exactly N entries in `processingTasks` and exactly N
task elements in the processing list, one per `task_id` and in the order of the response. -/
theorem showProcessingStatus_count (s : AppState) (tasks : List Task)
    (hs : Reachable s) (he : s.processingTasks = [])
    (hd : (tasks.map Task.task_id).Nodup) :
    (showProcessingStatus s (some tasks)).processingTasks.length = tasks.length ∧
    (showProcessingStatus s (some tasks)).processingList.length = tasks.length ∧
    (showProcessingStatus s (some tasks)).processingTasks.map Prod.fst
      = tasks.map Task.task_id ∧
    (showProcessingStatus s (some tasks)).processingList.map TaskElement.taskId
      = tasks.map Task.task_id := by
  have hl : s.processingList = [] := by
    have hc := hs.consistent
    unfold Consistent at hc
    rw [he] at hc
    simpa using hc
  have hf : ∀ t ∈ tasks, mapHas s.processingTasks t.task_id = false := by
    intro t _
    rw [he]
    rfl
  obtain ⟨e1, e2⟩ := showProcessingStatus_eq_foldl s tasks
  obtain ⟨f1, f2⟩ := foldl_registerTask_fresh tasks s hd hf
  rw [e1, e2, f1, f2, he, hl]
  simp [Function.comp_def, createProcessingTaskElement]

/-- C9 at Scenario A: the two records `t1`, `t2` give two entries and two elements. -/
theorem showProcessingStatus_count_scenarioA :
    scenarioA.processingTasks.length = 2 ∧
    scenarioA.processingList.length = 2 ∧
    scenarioA.processingTasks.map Prod.fst = ["t1", "t2"] ∧
    scenarioA.processingList.map TaskElement.taskId = ["t1", "t2"] :=
  showProcessingStatus_count initialState
    [mkTask "t1" "a.mp4" "pending", mkTask "t2" "b.mp4" "pending"]
    Reachable.init rfl (by decide)

/-! ## C10: the download button -/

/-- C10 fails at the state reached by registering `t1`, completing it and then pushing a
`processing` update for it: the stored status of `t1` is `processing` while the download
button of its element is still displayed. An element created for the stored record would
hide the button. -/
theorem download_button_stays_visible :
    Reachable scenarioRegressed ∧
    (mapGet scenarioRegressed.processingTasks "t1").map Task.status = some "processing" ∧
    (elementWithId scenarioRegressed.processingList "t1").map TaskElement.downloadDisplay
      = some "inline-block" ∧
    (mapGet scenarioRegressed.processingTasks "t1").map
        (fun t => (createProcessingTaskElement t).downloadDisplay) = some "none" :=
  ⟨Reachable.push _ _ reachable_scenarioC, by decide, by decide, by decide⟩

/-! ## The keys of the map -/

theorem mapHas_iff_mem_taskKeys (s : AppState) (k : String) :
    mapHas s.processingTasks k = true ↔ k ∈ taskKeys s :=
  mapGet_isSome_iff s.processingTasks k

theorem registerTask_taskKeys (s : AppState) (t : Task) :
    taskKeys (registerTask s t) = addKey (taskKeys s) t.task_id := by
  unfold addKey
  cases hh : mapHas s.processingTasks t.task_id
  · have hk : t.task_id ∉ taskKeys s := by
      rw [← mapHas_iff_mem_taskKeys, hh]
      exact Bool.noConfusion
    rw [if_neg hk]
    unfold taskKeys
    rw [(registerTask_of_not_has s t hh).1]
    simp
  · rw [registerTask_tasks_of_has s t hh, if_pos ((mapHas_iff_mem_taskKeys s _).mp hh)]

theorem foldl_registerTask_taskKeys (ts : List Task) (s : AppState) :
    taskKeys (ts.foldl registerTask s) = (ts.map Task.task_id).foldl addKey (taskKeys s) := by
  induction ts generalizing s with
  | nil => rfl
  | cons t ts ih =>
    simp only [List.foldl_cons, List.map_cons]
    rw [ih, registerTask_taskKeys]

theorem showProcessingStatus_taskKeys (s : AppState) (tasks : Option (List Task)) :
    taskKeys (showProcessingStatus s tasks)
      = (registeredIds (Event.register tasks)).foldl addKey (taskKeys s) := by
  cases tasks with
  | none => rfl
  | some ts =>
    unfold taskKeys
    rw [(showProcessingStatus_eq_foldl s ts).1]
    exact foldl_registerTask_taskKeys ts s

theorem updateSafe_taskKeys (s : AppState) (u : Update) :
    taskKeys (updateSafe s u) = taskKeys s := by
  unfold taskKeys
  rw [updateSafe_tasks]
  split
  · rename_i stored el hg hq
    apply mapSet_keys_of_mem
    rw [← mapGet_isSome_iff, hg]
    rfl
  · rfl

theorem updateProcessingStatus_taskKeys (s : AppState) (u : Update) :
    taskKeys (updateProcessingStatus s u) = taskKeys s :=
  updateProcessingStatus_cases s u (fun x => taskKeys x = taskKeys s)
    (updateSafe_taskKeys s u) rfl

theorem step_taskKeys (s : AppState) (e : Event) :
    taskKeys (step s e) = (registeredIds e).foldl addKey (taskKeys s) := by
  cases e with
  | register tasks => exact showProcessingStatus_taskKeys s tasks
  | push u => exact updateProcessingStatus_taskKeys s u
  | tab name => rfl

theorem addKey_nodup (l : List String) (k : String) (h : l.Nodup) : (addKey l k).Nodup := by
  unfold addKey
  split
  · exact h
  · rename_i hk
    rw [List.nodup_append]
    refine ⟨h, List.nodup_singleton k, ?_⟩
    intro a ha hb
    rw [List.mem_singleton] at hb
    exact hk (hb ▸ ha)

theorem foldl_addKey_nodup (ids l : List String) (h : l.Nodup) :
    (ids.foldl addKey l).Nodup := by
  induction ids generalizing l with
  | nil => exact h
  | cons k ids ih => exact ih _ (addKey_nodup l k h)

theorem prefix_foldl_addKey (ids l : List String) : l <+: ids.foldl addKey l := by
  induction ids generalizing l with
  | nil => exact List.prefix_refl l
  | cons k ids ih =>
    have h1 : l <+: addKey l k := by
      unfold addKey
      split
      · exact List.prefix_refl l
      · exact List.prefix_append l [k]
    exact h1.trans (ih _)

theorem Reachable.taskKeys_nodup {s : AppState} (h : Reachable s) : (taskKeys s).Nodup := by
  induction h with
  | init => exact List.nodup_nil
  | register s tasks _ ih =>
    rw [showProcessingStatus_taskKeys]
    exact foldl_addKey_nodup _ _ ih
  | push s u _ ih =>
    rw [updateProcessingStatus_taskKeys]
    exact ih
  | tab s name _ ih => exact ih

theorem reachable_step (s : AppState) (e : Event) (h : Reachable s) : Reachable (step s e) := by
  cases e with
  | register tasks => exact Reachable.register s tasks h
  | push u => exact Reachable.push s u h
  | tab name => exact Reachable.tab s name h

theorem reachable_foldl_step (events : List Event) (s : AppState) (h : Reachable s) :
    Reachable (events.foldl step s) := by
  induction events generalizing s with
  | nil => exact h
  | cons e events ih => exact ih _ (reachable_step s e h)

theorem reachable_run (events : List Event) : Reachable (run events) :=
  reachable_foldl_step events initialState Reachable.init

/-! ## C11: one element per task -/

theorem filter_taskId_length (es : List TaskElement) (k : String) :
    (es.filter (fun e => decide (e.taskId = k))).length
      = (es.map TaskElement.taskId).count k := by
  induction es with
  | nil => rfl
  | cons e es ih =>
    by_cases h : e.taskId = k
    · simp [List.filter_cons, h, ih]
    · simp [List.filter_cons, h, ih, List.count_cons]

/-- C11: in every state reachable from the initial state by `showProcessingStatus` and
`updateProcessingStatus` calls (and tab switches), the processing list holds exactly one
task element for each `task_id` that is a key of `processingTasks` and none for any other
identifier; so no call leaves a second element for a `task_id`. -/
theorem one_element_per_task (s : AppState) (hs : Reachable s) (k : String) :
    (s.processingList.filter (fun e => decide (e.taskId = k))).length
      = if mapHas s.processingTasks k = true then 1 else 0 := by
  rw [filter_taskId_length]
  have hc : s.processingList.map TaskElement.taskId = taskKeys s := hs.consistent
  rw [hc, List.count_eq_of_nodup hs.taskKeys_nodup]
  by_cases hk : k ∈ taskKeys s
  · rw [if_pos hk, if_pos ((mapHas_iff_mem_taskKeys s k).mpr hk)]
  · have hn : ¬ mapHas s.processingTasks k = true :=
      fun h => hk ((mapHas_iff_mem_taskKeys s k).mp h)
    rw [if_neg hk, if_neg hn]

/-- C11 at the state after a second upload that names `t1` again: still one element for
`t1`, and none for the unknown `t99`. -/
theorem one_element_per_task_example :
    (((showProcessingStatus scenarioC (some secondUpload)).processingList.filter
        (fun e => decide (e.taskId = "t1"))).length = 1 ∧
      mapHas (showProcessingStatus scenarioC (some secondUpload)).processingTasks "t1"
        = true) ∧
    (((showProcessingStatus scenarioC (some secondUpload)).processingList.filter
        (fun e => decide (e.taskId = "t99"))).length = 0 ∧
      mapHas (showProcessingStatus scenarioC (some secondUpload)).processingTasks "t99"
        = false) :=
  ⟨⟨(one_element_per_task _ (Reachable.register _ _ reachable_scenarioC) "t1").trans
      (by decide), by decide⟩,
    ⟨(one_element_per_task _ (Reachable.register _ _ reachable_scenarioC) "t99").trans
      (by decide), by decide⟩⟩

/-! ## C17: the display order -/

theorem foldl_step_taskKeys (events : List Event) (s : AppState) :
    taskKeys (events.foldl step s)
      = (events.flatMap registeredIds).foldl addKey (taskKeys s) := by
  induction events generalizing s with
  | nil => rfl
  | cons e events ih =>
    simp only [List.foldl_cons, List.flatMap_cons, List.foldl_append]
    rw [ih, step_taskKeys]

theorem elementIds_eq_taskKeys (s : AppState) (h : Reachable s) :
    elementIds s = taskKeys s :=
  h.consistent

/-- C17: after any sequence of `showProcessingStatus` calls, `updateProcessingStatus` calls
and tab switches, the keys of `processingTasks` are the registered `task_id`s in the order
in which each was first registered, and the task elements are in that same order; an
update leaves both orders as they are, and a further registration only appends (the old
order is a prefix of the new one). -/
theorem display_order (events : List Event) :
    taskKeys (run events) = firstSeen (events.flatMap registeredIds) ∧
    elementIds (run events) = taskKeys (run events) ∧
    (∀ u, taskKeys (updateProcessingStatus (run events) u) = taskKeys (run events) ∧
      elementIds (updateProcessingStatus (run events) u) = elementIds (run events)) ∧
    (∀ tasks, taskKeys (run events) <+: taskKeys (showProcessingStatus (run events) tasks) ∧
      elementIds (run events) <+: elementIds (showProcessingStatus (run events) tasks)) := by
  have hr := reachable_run events
  have e0 := elementIds_eq_taskKeys _ hr
  refine ⟨foldl_step_taskKeys events initialState, e0, fun u => ?_, fun tasks => ?_⟩
  · have e1 := elementIds_eq_taskKeys _ (Reachable.push _ u hr)
    have k1 := updateProcessingStatus_taskKeys (run events) u
    exact ⟨k1, by rw [e1, k1, e0]⟩
  · have e1 := elementIds_eq_taskKeys _ (Reachable.register _ tasks hr)
    have k1 : taskKeys (run events) <+: taskKeys (showProcessingStatus (run events) tasks) := by
      rw [showProcessingStatus_taskKeys]
      exact prefix_foldl_addKey _ _
    exact ⟨k1, by rw [e1, e0]; exact k1⟩

/-! ## The elements show their records -/

theorem mapSet_self (m : List (String × Task)) (k : String) (t : Task)
    (h : mapGet m k = some t) : mapSet m k t = m := by
  induction m with
  | nil => simp [mapGet] at h
  | cons e m ih =>
    obtain ⟨k', v'⟩ := e
    by_cases hk : k' = k
    · simp only [mapGet, hk, if_true, Option.some.injEq] at h
      simp [mapSet, hk, h]
    · simp only [mapGet, hk, if_false] at h
      simp [mapSet, hk, ih h]

theorem elementWithId_append_other (es : List TaskElement) (e : TaskElement) (k : String)
    (h : e.taskId ≠ k) : elementWithId (es ++ [e]) k = elementWithId es k := by
  induction es with
  | nil => simp [elementWithId, h]
  | cons e0 es ih =>
    by_cases h0 : e0.taskId = k
    · simp [elementWithId, h0]
    · simp [elementWithId, h0, ih]

theorem elementWithId_append_new (es : List TaskElement) (e : TaskElement)
    (h : e.taskId ∉ es.map TaskElement.taskId) :
    elementWithId (es ++ [e]) e.taskId = some e := by
  induction es with
  | nil => simp [elementWithId]
  | cons e0 es ih =>
    simp only [List.map_cons, List.mem_cons, not_or] at h
    have h0 : ¬ e0.taskId = e.taskId := fun x => h.1 x.symm
    simp [elementWithId, h0, ih h.2]

theorem rendersRecord_create (t : Task) : rendersRecord t (createProcessingTaskElement t) :=
  ⟨rfl, rfl, rfl, rfl, rfl⟩

theorem rendersRecord_update (t : Task) (el : TaskElement) :
    rendersRecord t (updateTaskElement t el) := by
  unfold updateTaskElement
  split <;> exact ⟨rfl, rfl, rfl, rfl, rfl⟩

theorem registerTask_synced (s : AppState) (t : Task) (hc : Consistent s) (h : Synced s) :
    Synced (registerTask s t) := by
  cases hh : mapHas s.processingTasks t.task_id
  · obtain ⟨r1, r2⟩ := registerTask_of_not_has s t hh
    have hk : t.task_id ∉ s.processingList.map TaskElement.taskId := by
      rw [hc, ← mapGet_isSome_iff]
      simpa [mapHas] using hh
    intro k t' el hg hq
    by_cases hkk : k = t.task_id
    · subst hkk
      rw [registerTask_get_absent s t hh] at hg
      rw [r2] at hq
      have hq' := elementWithId_append_new s.processingList (createProcessingTaskElement t) hk
      have e1 : (createProcessingTaskElement t).taskId = t.task_id := rfl
      rw [e1] at hq'
      rw [hq'] at hq
      cases hg
      cases hq
      exact rendersRecord_create t
    · rw [registerTask_get_other s t k hkk] at hg
      rw [r2, elementWithId_append_other _ _ _ (fun e => hkk e.symm)] at hq
      exact h k t' el hg hq
  · rw [registerTask_tasks_of_has s t hh]
    exact h

theorem foldl_registerTask_synced (ts : List Task) (s : AppState) (hc : Consistent s)
    (h : Synced s) : Synced (ts.foldl registerTask s) := by
  induction ts generalizing s with
  | nil => exact h
  | cons t ts ih =>
    exact ih _ (registerTask_consistent s t hc) (registerTask_synced s t hc h)

theorem showProcessingStatus_synced (s : AppState) (tasks : Option (List Task))
    (hc : Consistent s) (h : Synced s) : Synced (showProcessingStatus s tasks) := by
  cases tasks with
  | none => exact h
  | some ts =>
    obtain ⟨e1, e2⟩ := showProcessingStatus_eq_foldl s ts
    unfold Synced
    rw [e1, e2]
    exact foldl_registerTask_synced ts s hc h

theorem updateSafe_synced (s : AppState) (u : Update) (h : Synced s) :
    Synced (updateSafe s u) := by
  intro k t' el hg hq
  by_cases hk : k = u.task_id
  · subst hk
    rw [updateSafe_tasks] at hg
    rw [updateSafe_list] at hq
    cases hg0 : mapGet s.processingTasks u.task_id with
    | none =>
      simp [hg0] at hg
    | some stored =>
      cases hq0 : elementWithId s.processingList u.task_id with
      | none =>
        simp [hg0, hq0] at hq
      | some el0 =>
        rw [hg0, hq0] at hg hq
        simp only [mapGet_mapSet_same, Option.some.injEq] at hg
        have he : (updateTaskElement (objectAssign stored u) el0).taskId = u.task_id := by
          rw [updateTaskElement_taskId]
          exact elementWithId_taskId _ _ _ hq0
        simp only [elementWithId_replaceElement_same _ _ el0 _ he hq0,
          Option.some.injEq] at hq
        subst hg
        subst hq
        exact rendersRecord_update _ _
  · rw [updateSafe_get_other s u k hk] at hg
    rw [updateSafe_element_other s u k hk] at hq
    exact h k t' el hg hq

theorem Reachable.synced {s : AppState} (h : Reachable s) : Synced s := by
  induction h with
  | init =>
    intro k t el hg _
    simp [initialState, mapGet] at hg
  | register s tasks hr ih => exact showProcessingStatus_synced s tasks hr.consistent ih
  | push s u _ ih =>
    exact updateProcessingStatus_cases s u _ (updateSafe_synced s u ih) ih
  | tab s name _ ih => exact ih

/-! ## C12: an update that changes nothing -/

theorem updateSafe_effects (s : AppState) (u : Update) (stored : Task)
    (el : TaskElement) (hg : mapGet s.processingTasks u.task_id = some stored)
    (hq : elementWithId s.processingList u.task_id = some el) :
    (updateSafe s u).toasts =
      s.toasts ++
        (if (objectAssign stored u).status = "completed" then
          [{ type := "success", title := "Processing Complete",
             message := (objectAssign stored u).filename ++ " is ready for download." }]
        else []) ++
        (if (objectAssign stored u).status = "failed" then
          [{ type := "error", title := "Processing Failed",
             message := (objectAssign stored u).filename ++ " failed to process." }]
        else []) ∧
    (updateSafe s u).loadFilesCalls =
      s.loadFilesCalls +
        (if (objectAssign stored u).status = "completed" ∧ s.activeTab = "manage" then 1
        else 0) := by
  unfold updateSafe updateProcessingStatusBody
  rw [hg, hq]
  by_cases h1 : (objectAssign stored u).status = "completed"
  · have h2 : ¬ (objectAssign stored u).status = "failed" := by
      rw [h1]
      decide
    by_cases h3 : s.activeTab = "manage"
    · simp [showToast, loadFiles, h1, h3]
    · simp [showToast, loadFiles, h1, h3]
  · by_cases h2 : (objectAssign stored u).status = "failed"
    · simp [showToast, loadFiles, h1, h2]
    · simp [showToast, loadFiles, h1, h2]

theorem updateSafe_rerender (s : AppState) (u : Update) (t : Task)
    (el : TaskElement) (hsync : Synced s)
    (hg : mapGet s.processingTasks u.task_id = some t)
    (hq : elementWithId s.processingList u.task_id = some el)
    (hu : objectAssign t u = t) :
    (updateSafe s u).processingTasks = s.processingTasks ∧
    (∀ k, k ≠ u.task_id →
      elementWithId (updateSafe s u).processingList k
        = elementWithId s.processingList k) ∧
    (∃ el', elementWithId (updateSafe s u).processingList u.task_id = some el' ∧
      el'.taskId = el.taskId ∧ el'.className = el.className ∧ el'.fileName = el.fileName ∧
      el'.statusClass = el.statusClass ∧ el'.statusText = el.statusText ∧
      el'.progressWidth = el.progressWidth ∧ el'.progressText = el.progressText ∧
      (t.status ≠ "completed" →
        el'.downloadDisplay = el.downloadDisplay ∧ el'.filePath = el.filePath ∧
        el'.clickListeners = el.clickListeners)) ∧
    (updateSafe s u).toasts =
      s.toasts ++
        (if t.status = "completed" then
          [{ type := "success", title := "Processing Complete",
             message := t.filename ++ " is ready for download." }]
        else []) ++
        (if t.status = "failed" then
          [{ type := "error", title := "Processing Failed",
             message := t.filename ++ " failed to process." }]
        else []) ∧
    (updateSafe s u).loadFilesCalls =
      s.loadFilesCalls + (if t.status = "completed" ∧ s.activeTab = "manage" then 1 else 0) := by
  have heff := updateSafe_effects s u t el hg hq
  rw [hu] at heff
  obtain ⟨hr1, hr2, hr3, hr4, hr5⟩ := hsync u.task_id t el hg hq
  have he : (updateTaskElement t el).taskId = u.task_id := by
    rw [updateTaskElement_taskId]
    exact elementWithId_taskId _ _ _ hq
  refine ⟨?_, fun k hk => updateSafe_element_other s u k hk,
    ⟨updateTaskElement t el, ?_, updateTaskElement_taskId t el, ?_⟩, heff.1, heff.2⟩
  · rw [updateSafe_tasks, hg, hq]
    simp only [hu]
    exact mapSet_self _ _ _ hg
  · rw [updateSafe_list, hg, hq]
    simp only [hu]
    exact elementWithId_replaceElement_same _ _ el _ he hq
  · obtain ⟨g1, g2, g3, g4, g5⟩ := rendersRecord_update t el
    refine ⟨g1.trans hr1.symm, ?_, g2.trans hr2.symm, g3.trans hr3.symm, g4.trans hr4.symm,
      g5.trans hr5.symm, ?_⟩
    · unfold updateTaskElement
      split <;> rfl
    · intro hne
      unfold updateTaskElement
      rw [if_neg hne]
      exact ⟨rfl, rfl, rfl⟩

/-- C12, as stated, fails: in Scenario C the task `t1` is completed and the update of
Scenario A, sent once more, changes no stored field and leaves the map as it was; yet the
call shows one more toast, and with the manage tab active it starts one more `loadFiles`. -/
theorem repeated_completed_update_has_effects :
    Reachable scenarioC ∧
    (mapGet scenarioC.processingTasks updateA.task_id).map (fun t => objectAssign t updateA)
      = mapGet scenarioC.processingTasks updateA.task_id ∧
    (updateProcessingStatus scenarioC updateA).processingTasks = scenarioC.processingTasks ∧
    (updateProcessingStatus scenarioC updateA).toasts = scenarioC.toasts ++
      [{ type := "success", title := "Processing Complete",
         message := "a.mp4 is ready for download." }] ∧
    (updateProcessingStatus scenarioC updateA).toasts.length
      = scenarioC.toasts.length + 1 ∧
    Reachable (switchTab scenarioC "manage") ∧
    (updateProcessingStatus (switchTab scenarioC "manage") updateA).loadFilesCalls
      = (switchTab scenarioC "manage").loadFilesCalls + 1 :=
  ⟨reachable_scenarioC, by decide, by decide, by decide, by decide,
    Reachable.tab _ _ reachable_scenarioC, by decide⟩

/-- C12, amended: for a registered task whose `task_id` needs no escaping in the selector
(it holds no double quote, backslash, line break or null character) and an update with that `task_id` that changes no stored field, `updateProcessingStatus`
returns, leaves `processingTasks` as it was, leaves every other task element as it was, and
leaves the task identifier, class, file name, status class, status label, progress width
and progress text of the task element as they were. When the status of the task is not
`completed` the download button is untouched as well. Each such call shows one more
"Processing Complete" toast when the status is `completed` and one more "Processing Failed"
toast when it is `failed` (no toast otherwise), and starts one more `loadFiles` exactly when
the status is `completed` and the manage tab is active. -/
theorem updateProcessingStatus_rerender (s : AppState) (u : Update) (t : Task)
    (hs : Reachable s) (hg : mapGet s.processingTasks u.task_id = some t)
    (hu : objectAssign t u = t) (hsafe : selectorSafe u.task_id = true) :
    (updateProcessingStatusRun s u).error = none ∧
    (updateProcessingStatus s u).processingTasks = s.processingTasks ∧
    (∀ k, k ≠ u.task_id →
      elementWithId (updateProcessingStatus s u).processingList k
        = elementWithId s.processingList k) ∧
    (∃ el el', elementWithId s.processingList u.task_id = some el ∧
      elementWithId (updateProcessingStatus s u).processingList u.task_id = some el' ∧
      el'.taskId = el.taskId ∧ el'.className = el.className ∧ el'.fileName = el.fileName ∧
      el'.statusClass = el.statusClass ∧ el'.statusText = el.statusText ∧
      el'.progressWidth = el.progressWidth ∧ el'.progressText = el.progressText ∧
      (t.status ≠ "completed" →
        el'.downloadDisplay = el.downloadDisplay ∧ el'.filePath = el.filePath ∧
        el'.clickListeners = el.clickListeners)) ∧
    (updateProcessingStatus s u).toasts =
      s.toasts ++
        (if t.status = "completed" then
          [{ type := "success", title := "Processing Complete",
             message := t.filename ++ " is ready for download." }]
        else []) ++
        (if t.status = "failed" then
          [{ type := "error", title := "Processing Failed",
             message := t.filename ++ " failed to process." }]
        else []) ∧
    (updateProcessingStatus s u).loadFilesCalls =
      s.loadFilesCalls + (if t.status = "completed" ∧ s.activeTab = "manage" then 1 else 0) := by
  obtain ⟨el, hq⟩ := hs.consistent.elementWithId_isSome u.task_id t hg
  obtain ⟨h1, h2, ⟨el', h3, h4⟩, h5, h6⟩ := updateSafe_rerender s u t el hs.synced hg hq hu
  rw [updateProcessingStatus_of_safe s u hsafe, updateProcessingStatusRun_of_safe s u hsafe]
  exact ⟨rfl, h1, h2, ⟨el, el', hq, h3, h4⟩, h5, h6⟩

/-- C12, amended, at three repeated updates: for the completed task `t1` of Scenario C one
more "Processing Complete" toast and no `loadFiles` on the embed tab; the same with the
manage tab active and one more `loadFiles`; for a task registered as `failed` one more
"Processing Failed" toast. -/
theorem updateProcessingStatus_rerender_example :
    ((updateProcessingStatus scenarioC updateA).toasts = scenarioC.toasts ++
        [{ type := "success", title := "Processing Complete",
           message := "a.mp4 is ready for download." }] ∧
      (updateProcessingStatus scenarioC updateA).loadFilesCalls
        = scenarioC.loadFilesCalls) ∧
    (updateProcessingStatus (switchTab scenarioC "manage") updateA).loadFilesCalls
      = (switchTab scenarioC "manage").loadFilesCalls + 1 ∧
    (updateProcessingStatus scenarioFailed updateFailed).toasts = scenarioFailed.toasts ++
        [{ type := "error", title := "Processing Failed",
           message := "a.mp4 failed to process." }] := by
  have hA := updateProcessingStatus_rerender scenarioC updateA
    { task_id := "t1", filename := "a.mp4", status := "completed", progress := some 100,
      output_path := some "a.mp4" }
    reachable_scenarioC (by decide) (by decide) (by decide)
  have hM := updateProcessingStatus_rerender (switchTab scenarioC "manage") updateA
    { task_id := "t1", filename := "a.mp4", status := "completed", progress := some 100,
      output_path := some "a.mp4" }
    (Reachable.tab _ _ reachable_scenarioC) (by decide) (by decide) (by decide)
  have hF := updateProcessingStatus_rerender scenarioFailed updateFailed
    (mkTask "t1" "a.mp4" "failed")
    (Reachable.register _ _ Reachable.init) (by decide) (by decide) (by decide)
  refine ⟨⟨?_, ?_⟩, ?_, ?_⟩
  · rw [hA.2.2.2.2.1]
    simp
  · rw [hA.2.2.2.2.2]
    have ht : scenarioC.activeTab = "embed" := by decide
    simp [ht]
  · rw [hM.2.2.2.2.2]
    simp [switchTab]
  · rw [hF.2.2.2.2.1]
    simp [mkTask]

/-! ## C13: validation before the upload -/

theorem dropWhile_all_iff {α : Type} (p : α → Bool) (l : List α) :
    (∀ x ∈ l.dropWhile p, p x = true) ↔ ∀ x ∈ l, p x = true := by
  constructor
  · intro h
    have hnil : l.dropWhile p = [] := by
      induction l with
      | nil => rfl
      | cons a l ih =>
        by_cases ha : p a = true
        · simp only [List.dropWhile_cons_of_pos ha] at h ⊢
          exact ih h
        · have hd : (a :: l).dropWhile p = a :: l := List.dropWhile_cons_of_neg ha
          rw [hd] at h
          exact absurd (h a (List.mem_cons_self _ _)) ha
    exact List.dropWhile_eq_nil_iff.mp hnil
  · intro h
    rw [List.dropWhile_eq_nil_iff.mpr h]
    intro x hx
    cases hx

theorem jsTrim_eq_empty_iff (w : String) :
    jsTrim w = "" ↔ ∀ c ∈ w.data, isJsWhitespace c = true := by
  unfold jsTrim
  have h0 : ∀ l : List Char, String.mk l = "" ↔ l = [] := by
    intro l
    constructor
    · intro h
      exact congrArg String.data h
    · intro h
      rw [h]
  rw [h0, List.reverse_eq_nil_iff, List.dropWhile_eq_nil_iff]
  simp only [List.mem_reverse]
  exact dropWhile_all_iff isJsWhitespace w.data

theorem formDataFiles_ne_nil (form : UploadForm) : formDataFiles form ≠ [] := by
  unfold formDataFiles
  split
  · simp
  · assumption

theorem handleUpload_request_isSome (s : AppState) (form : UploadForm)
    (net : FetchResult UploadBody) :
    (handleUpload s form net).request.isSome = true ↔ ¬ jsTrim form.watermark_text = "" := by
  have h1 := formDataFiles_ne_nil form
  by_cases h2 : jsTrim form.watermark_text = ""
  · simp [handleUpload, h2]
  · simp [handleUpload, h1, h2]

/-- C13 does not hold of the code: the check on the files never fails. With no file chosen
the form data holds one empty file under `files`, so `handleUpload` issues the
`POST /upload_and_process` request whenever the watermark text has a character that is not
white space, and only then; for the form with no file and the text `secret` the request
goes out with the empty file. When the check fails no request is issued, `processingTasks`
and the processing list are unchanged, and the "Missing Data" toast is shown. -/
theorem handleUpload_sends_without_file (s : AppState) (form : UploadForm)
    (net : FetchResult UploadBody) :
    formNoFiles.selected = [] ∧
    (handleUpload s formNoFiles net).request = some
      { files := [""], watermark_text := "secret", options := sampleOptions } ∧
    ((handleUpload s form net).request.isSome = true ↔
      ∃ c ∈ form.watermark_text.data, isJsWhitespace c = false) ∧
    ((handleUpload s form net).request.isSome = true →
      (handleUpload s form net).request = some
        { files := formDataFiles form, watermark_text := form.watermark_text,
          options := form.options }) ∧
    ((handleUpload s form net).request.isSome = false →
      (handleUpload s form net).state.processingTasks = s.processingTasks ∧
      (handleUpload s form net).state.processingList = s.processingList ∧
      (handleUpload s form net).state.toasts = s.toasts ++
        [{ type := "error", title := "Missing Data",
           message := "Please select video files and enter watermark text." }]) := by
  have hw : (∃ c ∈ form.watermark_text.data, isJsWhitespace c = false) ↔
      ¬ jsTrim form.watermark_text = "" := by
    rw [jsTrim_eq_empty_iff]
    simp
  have h1 := formDataFiles_ne_nil form
  have h0 : ¬ jsTrim formNoFiles.watermark_text = "" := by decide
  refine ⟨rfl, ?_, ?_, ?_, ?_⟩
  · have hn : formDataFiles formNoFiles = [""] := by decide
    simp only [handleUpload, hn, h0]
    rfl
  · rw [hw]
    exact handleUpload_request_isSome s form net
  · by_cases h2 : jsTrim form.watermark_text = ""
    · simp [handleUpload, h2]
    · simp [handleUpload, h1, h2]
  · by_cases h2 : jsTrim form.watermark_text = ""
    · simp [handleUpload, h2, showToast]
    · simp [handleUpload, h1, h2]

/-! ## C14: a failed upload -/

/-- C14: when the form passes the check and the upload request is rejected or answered
with a non-2xx response, `handleUpload` leaves `processingTasks` and the processing list
exactly as they were and shows one error toast. For a payload with a non-empty `error`
string it is the "Processing Failed" toast with that string; for a payload with no `error`
string, or an empty one, it is the "Processing Failed" toast with the text "An unknown
error occurred during upload."; for a rejected request or a body that is not JSON it is
the "Server Error" toast with the text "Could not connect to the server or a network error
occurred.". -/
theorem handleUpload_failure (s : AppState) (form : UploadForm)
    (net : FetchResult UploadBody)
    (hv : (handleUpload s form net).request.isSome = true)
    (hf : net = FetchResult.rejected ∨ ∃ body, net = FetchResult.response false body) :
    (handleUpload s form net).state.processingTasks = s.processingTasks ∧
    (handleUpload s form net).state.processingList = s.processingList ∧
    (∀ result e, net = FetchResult.response false (some result) → result.error = some e →
      e ≠ "" → (handleUpload s form net).state.toasts = s.toasts ++
        [{ type := "error", title := "Processing Failed", message := e }]) ∧
    (∀ result, net = FetchResult.response false (some result) →
      result.error = none ∨ result.error = some "" →
      (handleUpload s form net).state.toasts = s.toasts ++
        [{ type := "error", title := "Processing Failed",
           message := "An unknown error occurred during upload." }]) ∧
    (net = FetchResult.rejected ∨ net = FetchResult.response false none →
      (handleUpload s form net).state.toasts = s.toasts ++
        [{ type := "error", title := "Server Error",
           message := "Could not connect to the server or a network error occurred." }]) := by
  have h1 := formDataFiles_ne_nil form
  have h2 : ¬ jsTrim form.watermark_text = "" :=
    (handleUpload_request_isSome s form net).mp hv
  rcases hf with hf | ⟨body, hf⟩
  · subst hf
    simp [handleUpload, h1, h2, showToast]
  · subst hf
    cases body with
    | none => simp [handleUpload, h1, h2, showToast]
    | some result =>
      simp only [handleUpload, List.length_eq_zero, h1, h2, decide_False, Bool.or_self,
        Bool.false_eq_true, if_false, showToast, true_and]
      refine ⟨?_, ?_, ?_⟩
      · intro r e hr he hne
        cases hr
        rw [he]
        simp [orDefault, hne]
      · intro r hr he
        cases hr
        rcases he with he | he <;> rw [he] <;> rfl
      · intro h
        rcases h with h | h <;> cases h

/-- C14 at four failed uploads from Scenario A: the refused upload leaves the two tasks
alone and shows the error string of the server; a refusal without an error string, or with
an empty one, shows the text for an unknown error; a rejected request shows the
"Server Error" toast. -/
theorem handleUpload_failure_example :
    ((handleUpload scenarioA formReady uploadRefused).state.processingTasks
        = scenarioA.processingTasks ∧
      (handleUpload scenarioA formReady uploadRefused).state.toasts = scenarioA.toasts ++
        [{ type := "error", title := "Processing Failed", message := "File too large" }]) ∧
    (handleUpload scenarioA formReady uploadRefusedSilently).state.toasts
      = scenarioA.toasts ++
        [{ type := "error", title := "Processing Failed",
           message := "An unknown error occurred during upload." }] ∧
    (handleUpload scenarioA formReady uploadRefusedEmpty).state.toasts
      = scenarioA.toasts ++
        [{ type := "error", title := "Processing Failed",
           message := "An unknown error occurred during upload." }] ∧
    (handleUpload scenarioA formReady FetchResult.rejected).state.toasts
      = scenarioA.toasts ++
        [{ type := "error", title := "Server Error",
           message := "Could not connect to the server or a network error occurred." }] :=
  ⟨⟨(handleUpload_failure scenarioA formReady uploadRefused (by decide)
        (Or.inr ⟨_, rfl⟩)).1,
      (handleUpload_failure scenarioA formReady uploadRefused (by decide)
        (Or.inr ⟨_, rfl⟩)).2.2.1 _ "File too large" rfl rfl (by decide)⟩,
    (handleUpload_failure scenarioA formReady uploadRefusedSilently (by decide)
      (Or.inr ⟨_, rfl⟩)).2.2.2.1 _ rfl (Or.inl rfl),
    (handleUpload_failure scenarioA formReady uploadRefusedEmpty (by decide)
      (Or.inr ⟨_, rfl⟩)).2.2.2.1 _ rfl (Or.inr rfl),
    (handleUpload_failure scenarioA formReady FetchResult.rejected (by decide)
      (Or.inl rfl)).2.2.2.2 (Or.inl rfl)⟩

/-! ## C15: a failed fetch of the file list -/

/-- C15, as stated, fails: the container shows the table of two files; a rejected
`GET /files` leaves the network-error alert in the container, and a non-2xx response leaves
the alert with the error of the server. The table is gone in both cases. -/
theorem failed_fetch_replaces_list :
    scenarioFiles.filesList = [FilesChild.table (sampleFiles.map fileRow)] ∧
    (loadFilesRun scenarioFiles FetchResult.rejected).filesList
      = [FilesChild.alertError "Network error. Could not connect to the server."] ∧
    (loadFilesRun scenarioFiles filesRefused).filesList
      = [FilesChild.alertError "Error loading files: disk unavailable"] ∧
    (loadFilesRun scenarioFiles FetchResult.rejected).filesList ≠ scenarioFiles.filesList ∧
    (loadFilesRun scenarioFiles filesRefused).filesList ≠ scenarioFiles.filesList :=
  ⟨rfl, rfl, by decide, by decide, by decide⟩

/-- C15, amended: `loadFiles` first replaces the content of the files container by the
loading indicator; when `GET /files` is rejected or answered with a non-2xx response, the
container then holds a single error alert in place of the previous list: the text
"Error loading files: " with the `error` of the payload (or "Unknown error") for a non-2xx
response with a JSON body, together with the "File Load Error" toast, and the network-error
text without a toast otherwise. -/
theorem loadFiles_failure (s : AppState) (net : FetchResult FilesBody) :
    (loadFiles s).filesList = [FilesChild.loading] ∧
    (net = FetchResult.rejected ∨ net = FetchResult.response false none →
      (loadFilesRun s net).filesList = [FilesChild.alertError networkErrorAlert] ∧
      (loadFilesRun s net).toasts = s.toasts) ∧
    (∀ body, net = FetchResult.response false (some body) →
      (loadFilesRun s net).filesList =
        [FilesChild.alertError
          ("Error loading files: " ++ orDefault body.error "Unknown error")] ∧
      (loadFilesRun s net).toasts = s.toasts ++
        [{ type := "error", title := "File Load Error",
           message := "Could not retrieve file list from the server." }]) := by
  refine ⟨rfl, ?_, ?_⟩
  · rintro (h | h) <;> subst h <;> exact ⟨rfl, rfl⟩
  · intro body h
    subst h
    exact ⟨rfl, rfl⟩

/-- C15, amended, at the example: the table gives way to the error of the server. -/
theorem loadFiles_failure_example :
    (loadFilesRun scenarioFiles filesRefused).filesList =
        [FilesChild.alertError
          ("Error loading files: " ++ orDefault (some "disk unavailable") "Unknown error")] ∧
    (loadFilesRun scenarioFiles filesRefused).toasts = scenarioFiles.toasts ++
        [{ type := "error", title := "File Load Error",
           message := "Could not retrieve file list from the server." }] :=
  (loadFiles_failure scenarioFiles filesRefused).2.2
    { files := none, error := some "disk unavailable" } rfl

/-! ## C16: the file list is rendered from the new list alone -/

/-- C16: the content of the files container after `renderFiles(files)` is the same whatever
the container held before: the empty-state block alone when the list is empty, otherwise
the table alone, with exactly one row per file, in the order of the list. -/
theorem renderFiles_wholesale (s₁ s₂ : AppState) (files : List PersistedFile) :
    (renderFiles s₁ files).filesList = (renderFiles s₂ files).filesList ∧
    (renderFiles s₁ files).filesList =
      (if files = [] then [FilesChild.emptyState]
      else [FilesChild.table (files.map fileRow)]) ∧
    (files.map fileRow).length = files.length ∧
    (files.map fileRow).map FileRow.downloadPath = files.map PersistedFile.relative_path := by
  have h : ∀ s : AppState, (renderFiles s files).filesList =
      (if files = [] then [FilesChild.emptyState]
      else [FilesChild.table (files.map fileRow)]) := by
    intro s
    unfold renderFiles
    by_cases hf : files = []
    · simp [hf]
    · simp [hf]
  refine ⟨(h s₁).trans (h s₂).symm, h s₁, List.length_map _ _, ?_⟩
  simp [Function.comp_def, fileRow]

/-! ## C20: the tamper-check button -/

/-- C20: in the table that `renderFiles` builds for a non-empty list, the row of every file
has its tamper-check button enabled and listening with `tamperCheck(file.relative_path,
file.filename)` when `file.watermarked` holds, and disabled with no click listener when it
does not. -/
theorem renderFiles_checkBtn (s : AppState) (files : List PersistedFile)
    (hf : files ≠ []) :
    ∃ rows, (renderFiles s files).filesList = [FilesChild.table rows] ∧
      List.Forall₂
        (fun file row =>
          (file.watermarked = true →
            row.checkBtn.disabled = false ∧
            row.checkBtn.handler = some (file.relative_path, file.filename)) ∧
          (file.watermarked = false →
            row.checkBtn.disabled = true ∧ row.checkBtn.handler = none) ∧
          (row.checkBtn.disabled = false ↔ file.watermarked = true))
        files rows := by
  refine ⟨files.map fileRow, ?_, ?_⟩
  · unfold renderFiles
    simp [hf]
  · rw [List.forall₂_map_right_iff]
    apply List.forall₂_same.mpr
    intro file _
    unfold fileRow
    cases file.watermarked <;> simp

/-- C20 at the two sample files: the watermarked one can be checked, the original cannot. -/
theorem renderFiles_checkBtn_example :
    ∃ rows, (renderFiles initialState sampleFiles).filesList = [FilesChild.table rows] ∧
      List.Forall₂
        (fun file row =>
          (file.watermarked = true →
            row.checkBtn.disabled = false ∧
            row.checkBtn.handler = some (file.relative_path, file.filename)) ∧
          (file.watermarked = false →
            row.checkBtn.disabled = true ∧ row.checkBtn.handler = none) ∧
          (row.checkBtn.disabled = false ↔ file.watermarked = true))
        sampleFiles rows :=
  renderFiles_checkBtn initialState sampleFiles (by decide)

/-! ## C18: optional data in a tamper report -/

theorem toFixed_zero_two : toFixed 0 2 = "0.00" := by
  decide!

/-- C18, as stated, fails: the report carries `fps = 0`, so `fps` is present, and
`showTamperReport` renders `N/A`, not the two-decimal value `0.00`. -/
theorem zero_fps_rendered_as_na :
    reportZeroFps.fps = some 0 ∧
    (showTamperReport "a.mp4" reportZeroFps).fpsText = "N/A" ∧
    toFixed 0 2 = "0.00" ∧
    (showTamperReport "a.mp4" reportZeroFps).fpsText ≠ toFixed 0 2 := by
  refine ⟨rfl, by decide, toFixed_zero_two, ?_⟩
  rw [toFixed_zero_two]
  decide

/-- C18, amended: `showTamperReport` is total; it renders `N/A` for the FPS when `fps` is
absent or zero and the two-decimal value when `fps` is present and not zero, and it renders
the paragraph "No tampering signs detected." exactly when `issues` is empty. -/
theorem showTamperReport_optional (filename : String) (report : TamperReport) :
    (showTamperReport filename report).fpsText =
      (match report.fps with
        | none => "N/A"
        | some q => if q = 0 then "N/A" else toFixed q 2) ∧
    ((showTamperReport filename report).issuesList = IssuesView.noSigns ↔
      report.issues = []) := by
  constructor
  · unfold showTamperReport
    cases report.fps <;> rfl
  · unfold showTamperReport
    cases h : report.issues with
    | nil => simp
    | cons i is => simp

/-! ## C19: the order of the rendered issues -/

/-- C19, as stated, fails: the report lists a `splice` issue, a `frame_drop` issue and a
second `splice` issue, and the rendered list keeps that order, with the `frame_drop` item
between the two `splice` items. -/
theorem issues_not_grouped :
    renderedHeadings (showTamperReport "a.mp4" reportInterleaved).issuesList
      = ["SPLICE", "FRAME DROP", "SPLICE"] ∧
    groupedTogether
      (renderedHeadings (showTamperReport "a.mp4" reportInterleaved).issuesList) = false :=
  ⟨by decide, by decide⟩

/-- C19, amended: `showTamperReport` renders one item per issue in the order of
`report.issues`, each headed by its type (underscores as spaces, upper case) and followed
by the serialised issue; issues of one type appear together exactly when they do so in
`report.issues`. -/
theorem showTamperReport_issue_order (filename : String) (report : TamperReport) :
    renderedHeadings (showTamperReport filename report).issuesList
      = report.issues.map (fun issue => issueHeading issue.type) ∧
    (showTamperReport filename report).issuesList =
      (if report.issues = [] then IssuesView.noSigns
      else IssuesView.detected
        (report.issues.map (fun issue =>
          { heading := issueHeading issue.type, detail := issue.json }))) ∧
    groupedTogether (renderedHeadings (showTamperReport filename report).issuesList)
      = groupedTogether (report.issues.map (fun issue => issueHeading issue.type)) := by
  have h1 : renderedHeadings (showTamperReport filename report).issuesList
      = report.issues.map (fun issue => issueHeading issue.type) := by
    unfold showTamperReport
    cases h : report.issues with
    | nil => rfl
    | cons i is => simp [renderedHeadings, Function.comp_def]
  refine ⟨h1, ?_, by rw [h1]⟩
  unfold showTamperReport
  cases h : report.issues with
  | nil => rfl
  | cons i is => simp

/-! ## C23: the key of an entry is the `task_id` of its record -/

theorem mem_mapSet (m : List (String × Task)) (k : String) (v : Task) (e : String × Task)
    (h : e ∈ mapSet m k v) : e ∈ m ∨ e = (k, v) := by
  induction m with
  | nil =>
    simp only [mapSet, List.mem_singleton] at h
    exact Or.inr h
  | cons e0 m ih =>
    obtain ⟨k0, v0⟩ := e0
    by_cases h0 : k0 = k
    · simp only [mapSet, h0, if_true, List.mem_cons] at h
      rcases h with h | h
      · exact Or.inr h
      · exact Or.inl (List.mem_cons_of_mem _ h)
    · simp only [mapSet, h0, if_false, List.mem_cons] at h
      rcases h with h | h
      · exact Or.inl (h ▸ List.mem_cons_self _ _)
      · rcases ih h with h1 | h1
        · exact Or.inl (List.mem_cons_of_mem _ h1)
        · exact Or.inr h1

theorem mem_of_mapGet (m : List (String × Task)) (k : String) (t : Task)
    (h : mapGet m k = some t) : (k, t) ∈ m := by
  induction m with
  | nil => simp [mapGet] at h
  | cons e0 m ih =>
    obtain ⟨k0, v0⟩ := e0
    by_cases h0 : k0 = k
    · simp only [mapGet, h0, if_true, Option.some.injEq] at h
      rw [h0, h]
      exact List.mem_cons_self _ _
    · simp only [mapGet, h0, if_false] at h
      exact List.mem_cons_of_mem _ (ih h)

theorem registerTask_keyed (s : AppState) (t : Task)
    (h : ∀ e ∈ s.processingTasks, e.2.task_id = e.1) :
    ∀ e ∈ (registerTask s t).processingTasks, e.2.task_id = e.1 := by
  unfold registerTask
  split
  · exact h
  · intro e he
    rcases mem_mapSet _ _ _ _ he with h1 | h1
    · exact h e h1
    · rw [h1]

theorem foldl_registerTask_keyed (ts : List Task) (s : AppState)
    (h : ∀ e ∈ s.processingTasks, e.2.task_id = e.1) :
    ∀ e ∈ (ts.foldl registerTask s).processingTasks, e.2.task_id = e.1 := by
  induction ts generalizing s with
  | nil => exact h
  | cons t ts ih => exact ih _ (registerTask_keyed s t h)

theorem updateSafe_keyed (s : AppState) (u : Update)
    (h : ∀ e ∈ s.processingTasks, e.2.task_id = e.1) :
    ∀ e ∈ (updateSafe s u).processingTasks, e.2.task_id = e.1 := by
  rw [updateSafe_tasks]
  split
  · intro e he
    rcases mem_mapSet _ _ _ _ he with h1 | h1
    · exact h e h1
    · rw [h1]
      rfl
  · exact h

theorem Reachable.keyed {s : AppState} (h : Reachable s) :
    ∀ e ∈ s.processingTasks, e.2.task_id = e.1 := by
  induction h with
  | init =>
    intro e he
    cases he
  | register s tasks _ ih =>
    cases tasks with
    | none => exact ih
    | some ts =>
      rw [(showProcessingStatus_eq_foldl s ts).1]
      exact foldl_registerTask_keyed ts s ih
  | push s u _ ih =>
    exact updateProcessingStatus_cases s u
      (fun x => ∀ e ∈ x.processingTasks, e.2.task_id = e.1) (updateSafe_keyed s u ih) ih
  | tab s name _ ih => exact ih

/-- C23: in every state reachable by `showProcessingStatus` and `updateProcessingStatus`
calls (and tab switches), every entry of `processingTasks` holds a record whose `task_id`
is the key of the entry; in particular the record found under a key `k` has `task_id` `k`. -/
theorem key_matches_record (s : AppState) (hs : Reachable s) :
    (∀ e ∈ s.processingTasks, e.2.task_id = e.1) ∧
    (∀ k t, mapGet s.processingTasks k = some t → t.task_id = k) :=
  ⟨hs.keyed, fun k t h => hs.keyed (k, t) (mem_of_mapGet _ k t h)⟩

/-- C23 at Scenario C, after the update of `t1` has been merged. -/
theorem key_matches_record_scenarioC :
    Reachable scenarioC ∧
    (∀ e ∈ scenarioC.processingTasks, e.2.task_id = e.1) ∧
    (∀ k t, mapGet scenarioC.processingTasks k = some t → t.task_id = k) :=
  ⟨reachable_scenarioC, key_matches_record scenarioC reachable_scenarioC⟩

/-! ## C24: the layout of a duration -/

theorem digitChar_spec (d : Nat) (h : d < 10) :
    (Nat.digitChar d).toNat - 48 = d ∧ Nat.digitChar d ≠ ':' ∧
      (1 ≤ d → Nat.digitChar d ≠ '0') := by
  interval_cases d <;> decide

theorem readDecimal_append_singleton (a : List Char) (c : Char) :
    readDecimal (a ++ [c]) = 10 * readDecimal a + (c.toNat - 48) := by
  simp [readDecimal, List.foldl_append]

theorem toDigitsCore_spec (fuel : Nat) : ∀ (n : Nat) (ds : List Char), n < fuel →
    ∃ pre, Nat.toDigitsCore 10 fuel n ds = pre ++ ds ∧ pre ≠ [] ∧
      (∀ c ∈ pre, c ≠ ':') ∧ readDecimal pre = n ∧
      (1 ≤ n → ∀ c rest, pre = c :: rest → c ≠ '0') := by
  induction fuel with
  | zero =>
    intro n ds h
    exact absurd h (Nat.not_lt_zero n)
  | succ fuel ih =>
    intro n ds hn
    have hd := digitChar_spec (n % 10) (Nat.mod_lt n (by decide))
    by_cases h0 : n / 10 = 0
    · have hlt : n < 10 := by omega
      have hmod : n % 10 = n := Nat.mod_eq_of_lt hlt
      refine ⟨[Nat.digitChar (n % 10)], ?_, by simp, ?_, ?_, ?_⟩
      · simp [Nat.toDigitsCore, h0]
      · intro c hc
        rw [List.mem_singleton] at hc
        rw [hc]
        exact hd.2.1
      · have := hd.1
        simp only [readDecimal, List.foldl_cons, List.foldl_nil]
        omega
      · intro h1 c rest hpre
        have hc : c = Nat.digitChar (n % 10) := by
          have := congrArg List.head? hpre
          simp at this
          exact this.symm
        rw [hc]
        exact hd.2.2 (by omega)
    · have hlt : n / 10 < fuel := by omega
      obtain ⟨pre, e1, e2, e3, e4, e5⟩ := ih (n / 10) (Nat.digitChar (n % 10) :: ds) hlt
      refine ⟨pre ++ [Nat.digitChar (n % 10)], ?_, by simp, ?_, ?_, ?_⟩
      · simp [Nat.toDigitsCore, h0, e1]
      · intro c hc
        rw [List.mem_append, List.mem_singleton] at hc
        rcases hc with hc | hc
        · exact e3 c hc
        · rw [hc]
          exact hd.2.1
      · rw [readDecimal_append_singleton, e4]
        have := hd.1
        omega
      · intro _ c rest hpre
        cases pre with
        | nil => exact absurd rfl e2
        | cons c0 pre0 =>
          simp only [List.cons_append, List.cons.injEq] at hpre
          rw [← hpre.1]
          exact e5 (by omega) c0 pre0 rfl

theorem toString_data (n : Nat) :
    ∃ pre, (toString n).data = pre ∧ pre ≠ [] ∧ (∀ c ∈ pre, c ≠ ':') ∧ readDecimal pre = n ∧
      (1 ≤ n → ∀ c rest, pre = c :: rest → c ≠ '0') := by
  obtain ⟨pre, e1, e2, e3, e4, e5⟩ := toDigitsCore_spec (n + 1) n [] (Nat.lt_succ_self n)
  refine ⟨pre, ?_, e2, e3, e4, e5⟩
  show Nat.toDigitsCore 10 (n + 1) n [] = pre
  rw [e1, List.append_nil]

theorem twoDigits_spec (n : Nat) :
    (∀ c ∈ (twoDigits n).data, c ≠ ':') ∧ readDecimal (twoDigits n).data = n ∧
    2 ≤ (twoDigits n).length ∧
    (∃ zeros, (twoDigits n).data = List.replicate zeros '0' ++ (toString n).data) ∧
    (1 ≤ n → ∀ tail, stripLeadingZeroHours ((twoDigits n).data ++ tail)
      = (twoDigits n).data ++ tail) := by
  obtain ⟨pre, e1, e2, e3, e4, e5⟩ := toString_data n
  have hdata : (twoDigits n).data = List.replicate (2 - pre.length) '0' ++ pre := by
    show List.replicate (2 - (toString n).data.length) '0' ++ (toString n).data = _
    rw [e1]
  refine ⟨?_, ?_, ?_, ⟨2 - pre.length, by rw [hdata, e1]⟩, ?_⟩
  · intro c hc
    rw [hdata, List.mem_append] at hc
    rcases hc with hc | hc
    · rw [(List.mem_replicate.mp hc).2]
      decide
    · exact e3 c hc
  · rw [hdata]
    cases pre with
    | nil => exact absurd rfl e2
    | cons c0 pre0 =>
      cases pre0 with
      | nil =>
        simp only [readDecimal, List.foldl_cons, List.foldl_nil] at e4
        simp only [readDecimal, List.length_singleton, List.replicate, List.cons_append,
          List.nil_append, List.foldl_cons, List.foldl_nil]
        have h48 : ('0' : Char).toNat = 48 := by decide
        rw [h48]
        omega
      | cons c1 pre1 =>
        simpa using e4
  · simp only [String.length, hdata, List.length_append, List.length_replicate]
    omega
  · intro h1 tail
    rw [hdata]
    cases pre with
    | nil => exact absurd rfl e2
    | cons c0 pre0 =>
      have hc0 : c0 ≠ '0' := e5 h1 c0 pre0 rfl
      cases pre0 with
      | nil =>
        cases tail with
        | nil => rfl
        | cons t tail0 => simp [stripLeadingZeroHours, hc0]
      | cons c1 pre1 =>
        cases pre1 with
        | nil =>
          cases tail with
          | nil => rfl
          | cons t tail0 => simp [stripLeadingZeroHours, hc0]
        | cons c2 pre2 => simp [stripLeadingZeroHours, hc0]

theorem formatDurationExact_data (s : Nat) :
    (formatDurationExact s).data =
      stripLeadingZeroHours
        ((twoDigits (s / 3600)).data ++
          ':' :: ((twoDigits (s % 3600 / 60)).data ++ ':' :: (twoDigits (s % 60)).data)) := by
  simp [formatDurationExact, twoDigits, String.intercalate, String.intercalate.go]

theorem formatDurationExact_short (s : Nat) (h : s < 3600) :
    (formatDurationExact s).data =
      (twoDigits (s % 3600 / 60)).data ++ ':' :: (twoDigits (s % 60)).data := by
  rw [formatDurationExact_data]
  have h0 : s / 3600 = 0 := by omega
  rw [h0]
  rfl

theorem formatDurationExact_long (s : Nat) (h : 3600 ≤ s) :
    (formatDurationExact s).data =
      (twoDigits (s / 3600)).data ++
        ':' :: ((twoDigits (s % 3600 / 60)).data ++ ':' :: (twoDigits (s % 60)).data) := by
  rw [formatDurationExact_data]
  have h1 : 1 ≤ s / 3600 := by omega
  exact (twoDigits_spec (s / 3600)).2.2.2.2 h1 _

theorem splitColon_of_no_colon (a : List Char) (h : ∀ c ∈ a, c ≠ ':') :
    splitColon a = [a] := by
  induction a with
  | nil => rfl
  | cons c a ih =>
    have hc : c ≠ ':' := h c (List.mem_cons_self _ _)
    have ha := ih (fun x hx => h x (List.mem_cons_of_mem _ hx))
    simp [splitColon, hc, ha]

theorem splitColon_append (a rest : List Char) (h : ∀ c ∈ a, c ≠ ':') :
    splitColon (a ++ ':' :: rest) = a :: splitColon rest := by
  induction a with
  | nil => simp [splitColon]
  | cons c a ih =>
    have hc : c ≠ ':' := h c (List.mem_cons_self _ _)
    have ha := ih (fun x hx => h x (List.mem_cons_of_mem _ hx))
    simp [splitColon, hc, ha]

theorem readDuration_formatDurationExact (s : Nat) : readDuration (formatDurationExact s) = s := by
  obtain ⟨hc1, hr1, _, _, _⟩ := twoDigits_spec (s / 3600)
  obtain ⟨hc2, hr2, _, _, _⟩ := twoDigits_spec (s % 3600 / 60)
  obtain ⟨hc3, hr3, _, _, _⟩ := twoDigits_spec (s % 60)
  unfold readDuration
  by_cases h : s < 3600
  · rw [formatDurationExact_short s h, splitColon_append _ _ hc2, splitColon_of_no_colon _ hc3]
    simp only [List.foldl_cons, List.foldl_nil, hr2, hr3]
    omega
  · rw [formatDurationExact_long s (by omega), splitColon_append _ _ hc1,
      splitColon_append _ _ hc2, splitColon_of_no_colon _ hc3]
    simp only [List.foldl_cons, List.foldl_nil, hr1, hr2, hr3]
    omega

theorem log2Loop_spec (fuel : Nat) : ∀ n, n ≤ fuel → 1 ≤ n →
    2 ^ log2Loop fuel n ≤ n ∧ n < 2 ^ (log2Loop fuel n + 1) := by
  induction fuel with
  | zero =>
    intro n h1 h2
    omega
  | succ fuel ih =>
    intro n h1 h2
    unfold log2Loop
    by_cases h : 2 ≤ n
    · rw [if_pos h]
      obtain ⟨i1, i2⟩ := ih (n / 2) (by omega) (by omega)
      rw [pow_succ] at i2 ⊢
      rw [pow_succ]
      constructor <;> omega
    · rw [if_neg h]
      have : n = 1 := by omega
      subst this
      decide

theorem log2_spec (n : Nat) (h : 1 ≤ n) : 2 ^ log2 n ≤ n ∧ n < 2 ^ (log2 n + 1) :=
  log2Loop_spec n n (Nat.le_refl n) h

theorem lt_pow_log2 (n : Nat) : n < 2 ^ (log2 n + 1) := by
  by_cases h : 1 ≤ n
  · exact (log2_spec n h).2
  · have : n = 0 := by omega
    subst this
    decide

theorem roundHalfEven_ge (num den : Nat) : num / den ≤ roundHalfEven num den := by
  unfold roundHalfEven
  simp only
  split
  · exact Nat.le_refl _
  · split <;> omega

theorem roundHalfEven_one (num : Nat) : roundHalfEven num 1 = num := by
  simp [roundHalfEven, Nat.mod_one]

theorem roundHalfEven_div (a b P : Nat) (hb : 1 ≤ b) (hP : b < 2 * P) :
    roundHalfEven (a * P) b / P = a / b := by
  have hPpos : 0 < P := by omega
  have hbpos : 0 < b := hb
  have ha : b * (a / b) + a % b = a := Nat.div_add_mod a b
  have hr : a % b < b := Nat.mod_lt a hbpos
  have hQ : b * (a * P / b) + a * P % b = a * P := Nat.div_add_mod (a * P) b
  have hR : a * P % b < b := Nat.mod_lt (a * P) hbpos
  generalize hn : a / b = n at ha ⊢
  generalize hrr : a % b = r at ha hr
  generalize hQQ : a * P / b = Q at hQ
  generalize hRR : a * P % b = R at hQ hR
  -- lower bound
  have c1 : n * P ≤ Q := by
    rw [← hQQ, Nat.le_div_iff_mul_le hbpos]
    have : b * n ≤ a := by omega
    calc n * P * b = (b * n) * P := by ring
      _ ≤ a * P := Nat.mul_le_mul_right P this
  have key : a * P + P ≤ (n + 1) * P * b := by
    have : a + 1 ≤ b * n + b := by omega
    calc a * P + P = (a + 1) * P := by ring
      _ ≤ (b * n + b) * P := Nat.mul_le_mul_right P this
      _ = (n + 1) * P * b := by ring
  have c2 : Q < (n + 1) * P := by
    rw [← hQQ, Nat.div_lt_iff_lt_mul hbpos]
    omega
  have c3 : Q + 1 = (n + 1) * P → 2 * R < b := by
    intro hT
    have e1 : b * (Q + 1) = (n + 1) * P * b := by rw [hT]; ring
    have e2 : b * (Q + 1) = b * Q + b := by ring
    omega
  have hM : n * P ≤ roundHalfEven (a * P) b ∧ roundHalfEven (a * P) b < (n + 1) * P := by
    unfold roundHalfEven
    simp only [hQQ, hRR]
    split
    · exact ⟨c1, c2⟩
    · rename_i h2
      have : Q + 1 ≠ (n + 1) * P := fun h => h2 (c3 h)
      split <;> constructor <;> omega
  exact Nat.div_eq_of_lt_le hM.1 hM.2

theorem binade_of_le (a b : Nat) (h : b ≤ a) : binade a b = (log2 (a / b) : Int) := by
  simp [binade, h]

theorem binade_of_lt (a b : Nat) (h : a < b) :
    binade a b = -((log2 ((b - 1) / a) + 1 : Nat) : Int) := by
  simp [binade, Nat.not_le.mpr h]

theorem floor_numberDivide_small (a b k : Nat) (ha : a ≠ 0)
    (he : binade a b - 52 = -((k + 1 : Nat) : Int)) :
    Math.floor (numberDivide a b) = roundHalfEven (a * 2 ^ (k + 1)) b / 2 ^ (k + 1) := by
  have h1 : ¬ (0 : Int) ≤ -((k + 1 : Nat) : Int) := by omega
  have h2 : (- -((k + 1 : Nat) : Int)).toNat = k + 1 := by omega
  simp only [Math.floor, numberDivide, if_neg ha, he, if_neg h1, h2]

theorem floor_numberDivide_large (a b k : Nat) (ha : a ≠ 0)
    (he : binade a b - 52 = (k : Int)) :
    Math.floor (numberDivide a b) = roundHalfEven a (b * 2 ^ k) * 2 ^ k := by
  have h1 : (0 : Int) ≤ (k : Int) := by omega
  have h2 : ((k : Nat) : Int).toNat = k := by omega
  simp only [Math.floor, numberDivide, if_neg ha, he, if_pos h1, h2]

theorem floor_numberDivide (a b : Nat) (ha : a < 2 ^ 53) (hb : 1 ≤ b) :
    Math.floor (numberDivide a b) = a / b := by
  by_cases h0 : a = 0
  · subst h0
    simp [Math.floor, numberDivide]
  by_cases hab : b ≤ a
  · have hq : 1 ≤ a / b := (Nat.one_le_div_iff hb).mpr hab
    obtain ⟨l1, _⟩ := log2_spec (a / b) hq
    generalize hL : log2 (a / b) = L at l1
    have l2 : 2 ^ L * b ≤ a := (Nat.le_div_iff_mul_le hb).mp l1
    have l3 : 2 ^ L < 2 ^ 53 := by
      calc 2 ^ L = 2 ^ L * 1 := (Nat.mul_one _).symm
        _ ≤ 2 ^ L * b := Nat.mul_le_mul_left _ hb
        _ ≤ a := l2
        _ < 2 ^ 53 := ha
    have l4 : L < 53 := (Nat.pow_lt_pow_iff_right (by decide)).mp l3
    by_cases h52 : L = 52
    · subst h52
      have hb1 : b = 1 := by omega
      subst hb1
      rw [floor_numberDivide_large a 1 0 h0 (by rw [binade_of_le a 1 hab, hL]; rfl)]
      simp [roundHalfEven_one]
    · obtain ⟨k, hk⟩ : ∃ k, 52 - L = k + 1 := ⟨51 - L, by omega⟩
      rw [floor_numberDivide_small a b k h0 (by rw [binade_of_le a b hab, hL]; omega)]
      apply roundHalfEven_div a b _ hb
      have e : 2 ^ L * (2 * 2 ^ (k + 1)) = 2 ^ 53 := by
        rw [← pow_succ', ← pow_add]
        congr 1
        omega
      have : 2 ^ L * b < 2 ^ L * (2 * 2 ^ (k + 1)) := by omega
      exact Nat.lt_of_mul_lt_mul_left this
  · have hab : a < b := Nat.not_le.mp hab
    have hapos : 0 < a := Nat.pos_of_ne_zero h0
    have l1 := lt_pow_log2 ((b - 1) / a)
    generalize hK : log2 ((b - 1) / a) = K at l1
    have l2 : b - 1 < 2 ^ (K + 1) * a := (Nat.div_lt_iff_lt_mul hapos).mp l1
    rw [floor_numberDivide_small a b (52 + K) h0 (by rw [binade_of_lt a b hab, hK]; omega)]
    apply roundHalfEven_div a b _ hb
    have e : 2 * 2 ^ (52 + K + 1) = 2 ^ 53 * 2 ^ (K + 1) := by
      rw [← pow_succ', ← pow_add]
      congr 1
      omega
    rw [e]
    calc b ≤ 2 ^ (K + 1) * a := by omega
      _ < 2 ^ (K + 1) * 2 ^ 53 := Nat.mul_lt_mul_of_pos_left ha (by positivity)
      _ = 2 ^ 53 * 2 ^ (K + 1) := Nat.mul_comm _ _

theorem nearestDouble_of_lt (y : Nat) (h : y < 2 ^ 53) : nearestDouble y = y := by
  unfold nearestDouble
  rw [floor_numberDivide y 1 h (Nat.le_refl 1), Nat.div_one]

theorem nearestDouble_ge (y : Nat) (h : 2 ^ 53 ≤ y) : 2 ^ 53 ≤ nearestDouble y := by
  have h0 : y ≠ 0 := by
    intro h0
    subst h0
    exact absurd h (by decide)
  have hy : 1 ≤ y := Nat.pos_of_ne_zero h0
  obtain ⟨l1, l2⟩ := log2_spec y hy
  generalize hL : log2 y = L at l1 l2
  have l3 : 2 ^ 53 < 2 ^ (L + 1) := Nat.lt_of_le_of_lt h l2
  have l4 : 53 < L + 1 := (Nat.pow_lt_pow_iff_right (by decide)).mp l3
  obtain ⟨k, hk⟩ : ∃ k, L = 52 + k := ⟨L - 52, by omega⟩
  unfold nearestDouble
  rw [floor_numberDivide_large y 1 k h0
    (by rw [binade_of_le y 1 hy, Nat.div_one, hL]; omega)]
  have e : (2 : Nat) ^ L = 2 ^ 52 * 2 ^ k := by rw [hk, pow_add]
  have c1 : 2 ^ 52 ≤ y / (1 * 2 ^ k) := by
    rw [Nat.le_div_iff_mul_le (by positivity), Nat.one_mul, ← e]
    exact l1
  have c2 := roundHalfEven_ge y (1 * 2 ^ k)
  have c3 : 2 ^ 52 * 2 ^ k ≤ roundHalfEven y (1 * 2 ^ k) * 2 ^ k :=
    Nat.mul_le_mul_right _ (Nat.le_trans c1 c2)
  have c4 : (2 : Nat) ^ 53 ≤ 2 ^ L := Nat.pow_le_pow_right (by decide) (by omega)
  omega

theorem shortestCandidate_sound (v d k y : Nat) (h : shortestCandidate v d k = some y) :
    nearestDouble y = v := by
  unfold shortestCandidate at h
  simp only at h
  split at h
  · rename_i hlo
    split at h
    · rename_i hhi
      split at h
      · cases h; exact hlo
      · split at h
        · cases h; exact hhi
        · split at h
          · cases h; exact hlo
          · cases h; exact hhi
    · cases h; exact hlo
  · split at h
    · rename_i hhi
      cases h; exact hhi
    · cases h

theorem nearestDouble_eq_small (v y : Nat) (hv : v < 2 ^ 53) (h : nearestDouble y = v) :
    y = v := by
  by_cases hy : y < 2 ^ 53
  · rw [nearestDouble_of_lt y hy] at h
    exact h
  · have := nearestDouble_ge y (Nat.not_lt.mp hy)
    omega

theorem shortestDecimal_of_lt (v : Nat) (hv : v < 2 ^ 53) : shortestDecimal v = v := by
  unfold shortestDecimal
  simp only
  cases hf : (List.range (Nat.toDigits 10 v).length).findSome?
      (fun i => shortestCandidate v (Nat.toDigits 10 v).length (i + 1)) with
  | none => rfl
  | some y =>
    obtain ⟨i, _, hi⟩ := List.exists_of_findSome?_eq_some hf
    exact nearestDouble_eq_small v y hv (shortestCandidate_sound _ _ _ _ hi)

theorem numberToString_of_lt (v : Nat) (hv : v < 2 ^ 53) : numberToString v = toString v := by
  unfold numberToString
  simp only [shortestDecimal_of_lt v hv]
  have h : v < 10 ^ 21 := Nat.lt_trans hv (by decide)
  rw [if_pos h]

theorem formatDuration_eq_exact (s : Nat) (hs : s < 2 ^ 53) :
    formatDuration s = formatDurationExact s := by
  have h1 : s / 3600 < 2 ^ 53 := Nat.lt_of_le_of_lt (Nat.div_le_self s 3600) hs
  have h2 : s % 3600 < 2 ^ 53 := Nat.lt_of_le_of_lt (Nat.mod_le s 3600) hs
  have h3 : s % 3600 / 60 < 2 ^ 53 := Nat.lt_of_le_of_lt (Nat.div_le_self _ 60) h2
  have h4 : s % 60 < 2 ^ 53 := Nat.lt_of_le_of_lt (Nat.mod_le s 60) hs
  unfold formatDuration formatDurationExact
  simp only [floor_numberDivide s 3600 hs (by decide),
    floor_numberDivide (s % 3600) 60 h2 (by decide), List.map_cons, List.map_nil,
    numberToString_of_lt _ h1, numberToString_of_lt _ h3, numberToString_of_lt _ h4]

/-- C24, as stated, fails: the whole number `10 ^ 21` is a double, and for it
`formatDuration` gives `277777777777777800:46:40`. The quotient `10 ^ 21 / 3600` is rounded
to the double `277777777777777792`, which prints with its shortest digits, while
`floor(10 ^ 21 / 3600)` is `277777777777777777`; the text does not read back as
`10 ^ 21`. -/
theorem formatDuration_rounds_hours :
    isDouble (10 ^ 21) = true ∧
    Math.floor (numberDivide (10 ^ 21) 3600) = 277777777777777792 ∧
    10 ^ 21 / 3600 = 277777777777777777 ∧
    formatDuration (10 ^ 21) = "277777777777777800:46:40" ∧
    formatDuration (10 ^ 21) ≠ formatDurationExact (10 ^ 21) ∧
    readDuration (formatDuration (10 ^ 21)) = 1000000000000000082800 ∧
    readDuration (formatDuration (10 ^ 21)) ≠ 10 ^ 21 := by
  decide!

/-- C24, amended: for every whole number of seconds `s` below `2 ^ 53`, `formatDuration(s)`
is `MM:SS` when `s < 3600` and `HH:MM:SS` when `s ≥ 3600`, where `HH = s / 3600`,
`MM = (s % 3600) / 60` and `SS = s % 60` are printed in decimal and padded with zeros to at
least two digits; the three numbers add up to `s` as `HH * 3600 + MM * 60 + SS`, and
reading the text back field by field gives `s`. -/
theorem formatDuration_layout (s : Nat) (hs : s < 2 ^ 53) :
    formatDuration s = formatDurationExact s ∧
    formatDuration s =
      (if s < 3600 then twoDigits (s % 3600 / 60) ++ ":" ++ twoDigits (s % 60)
      else twoDigits (s / 3600) ++ ":" ++ twoDigits (s % 3600 / 60) ++ ":" ++
        twoDigits (s % 60)) ∧
    (∀ n, 2 ≤ (twoDigits n).length ∧
      (∃ zeros, (twoDigits n).data = List.replicate zeros '0' ++ (toString n).data) ∧
      readDecimal (twoDigits n).data = n) ∧
    s / 3600 * 3600 + s % 3600 / 60 * 60 + s % 60 = s ∧
    readDuration (formatDuration s) = s := by
  have he := formatDuration_eq_exact s hs
  rw [he]
  refine ⟨rfl, ?_, fun n => ?_, by omega, readDuration_formatDurationExact s⟩
  · apply String.ext
    by_cases h : s < 3600
    · rw [if_pos h, formatDurationExact_short s h]
      simp [String.data_append]
    · rw [if_neg h, formatDurationExact_long s (by omega)]
      simp [String.data_append]
  · obtain ⟨_, h2, h3, h4, _⟩ := twoDigits_spec n
    exact ⟨h3, h4, h2⟩

/-- C24, amended, at three durations: 65 seconds print as `01:05`, 3725 seconds as
`01:02:05`, and the largest whole number below `2 ^ 53` with its hours in full. -/
theorem formatDuration_layout_example :
    formatDuration 65 = "01:05" ∧
    formatDuration 3725 = "01:02:05" ∧
    formatDuration (2 ^ 53 - 1) = "2501999792983:36:31" ∧
    readDuration (formatDuration (2 ^ 53 - 1)) = 2 ^ 53 - 1 :=
  ⟨(formatDuration_layout 65 (by decide)).1.trans (by decide),
    (formatDuration_layout 3725 (by decide)).1.trans (by decide),
    (formatDuration_layout (2 ^ 53 - 1) (by decide)).1.trans (by decide),
    (formatDuration_layout (2 ^ 53 - 1) (by decide)).2.2.2.2⟩

/-! ## C21: single and batch analysis -/

theorem batchItem_of_issues (file : AnalysisRecord) (issues : List Issue)
    (h : file.issues = some issues) : batchItem file = some (singleItem file) := by
  simp [batchItem, singleItem, h]

theorem batchItems_of_issues (files : List AnalysisRecord)
    (h : ∀ file ∈ files, ∃ issues, file.issues = some issues) :
    batchItems files = some (files.map singleItem) := by
  induction files with
  | nil => rfl
  | cons file files ih =>
    obtain ⟨issues, hi⟩ := h file (List.mem_cons_self _ _)
    have hrest := ih (fun f hf => h f (List.mem_cons_of_mem _ hf))
    simp [batchItems, batchItem_of_issues file issues hi, hrest]

theorem updateVideoAnalysis_batch_of_issues (content : AnalysisContent)
    (files : List AnalysisRecord) (h : ∀ file ∈ files, ∃ issues, file.issues = some issues) :
    updateVideoAnalysis (some content) (AnalysisData.batch files) =
      { resultsDiv := some (AnalysisContent.summary (files.map singleItem)), error := none } := by
  simp [updateVideoAnalysis, batchItems_of_issues files h]

/-- C21 fails for a record without an `issues` property: given alone, the record is
rendered as one item with the badge "Clean"; given as a batch of one, the loop throws
and `#analysis-results` is left empty, with no item. -/
theorem batch_throws_without_issues :
    recordWithoutIssues.issues = none ∧
    renderedBadges
      (updateVideoAnalysis (some AnalysisContent.empty) (AnalysisData.single recordWithoutIssues))
      = some [AnalysisBadge.clean] ∧
    (updateVideoAnalysis (some AnalysisContent.empty)
      (AnalysisData.single recordWithoutIssues)).error = none ∧
    (updateVideoAnalysis (some AnalysisContent.empty)
      (AnalysisData.batch [recordWithoutIssues])).resultsDiv = some AnalysisContent.empty ∧
    (updateVideoAnalysis (some AnalysisContent.empty)
      (AnalysisData.batch [recordWithoutIssues])).error
      = some "TypeError: file.issues is undefined" :=
  ⟨rfl, by decide, by decide, by decide, by decide⟩

/-! ## C22: a tour step without element -/

theorem showStep_missing_element (steps : List TourStep) (t : TourState) (i : Nat)
    (step : TourStep) (hs : steps.get? i = some step) (he : step.element = none) :
    showStep steps t i =
      { state := { t with currentStep := i }
        error := some "TypeError: this.nextStep is not a function" } := by
  have hlt : i < steps.length := by
    rcases Nat.lt_or_ge i steps.length with h | h
    · exact h
    · rw [List.get?_eq_none.mpr h] at hs
      cases hs
  have hc : ¬ ((i : Int) < 0 ∨ (i : Int) ≥ steps.length) := by
    omega
  unfold showStep
  rw [if_neg hc]
  simp only [Int.toNat_ofNat, hs, he]

/-- C22 fails on a page without the strength slider: after step 2 is shown, `showStep(2)`
throws, the popup still shows step 2 and not step 4, and the overlay stays open. On a page
without the submit button `showStep(4)`, the last step, throws as well and the tour is not
ended: the overlay stays open and no toast is shown. -/
theorem showStep_throws_on_missing_element :
    ((tourSteps pageWithoutStrength).get? 2).map TourStep.element = some none ∧
    (showStep (tourSteps pageWithoutStrength)
        (showStep (tourSteps pageWithoutStrength) tourStart 1).state 2).error
      = some "TypeError: this.nextStep is not a function" ∧
    (showStep (tourSteps pageWithoutStrength)
        (showStep (tourSteps pageWithoutStrength) tourStart 1).state 2).state.title
      = "Step 2: Enter Watermark Text" ∧
    (showStep (tourSteps pageWithoutStrength)
        (showStep (tourSteps pageWithoutStrength) tourStart 1).state 2).state.overlayDisplay
      = "block" ∧
    (showStep (tourSteps pageWithoutSubmit)
        (showStep (tourSteps pageWithoutSubmit) tourStart 3).state 4).error
      = some "TypeError: this.nextStep is not a function" ∧
    (showStep (tourSteps pageWithoutSubmit)
        (showStep (tourSteps pageWithoutSubmit) tourStart 3).state 4).state.overlayDisplay
      = "block" ∧
    (showStep (tourSteps pageWithoutSubmit)
        (showStep (tourSteps pageWithoutSubmit) tourStart 3).state 4).state.toasts = [] :=
  ⟨by decide, by decide, by decide, by decide, by decide, by decide, by decide⟩

/-! ## Exceptions inside `showProcessingStatus` and `handleUpload` -/

theorem showProcessingStatusRun_error (s : AppState) (tasks : Option (List Task)) :
    (showProcessingStatusRun s tasks).error =
      (match tasks with
        | some (_ :: _) => some switchTabError
        | _ => none) ∧
    (showProcessingStatus s tasks).activeTab = s.activeTab := by
  unfold showProcessingStatus showProcessingStatusRun
  have hf : ∀ (ts : List Task) (x : AppState),
      (ts.foldl registerTask x).activeTab = x.activeTab := by
    intro ts
    induction ts with
    | nil => intro x; rfl
    | cons t ts ih =>
      intro x
      rw [List.foldl_cons, ih]
      unfold registerTask
      split <;> rfl
  cases tasks with
  | none => exact ⟨rfl, rfl⟩
  | some ts =>
    cases ts with
    | nil => exact ⟨rfl, rfl⟩
    | cons t ts => exact ⟨rfl, hf _ _⟩

theorem handleUpload_accepted_toasts :
    (handleUpload scenarioA formReady uploadAccepted).state.toasts = scenarioA.toasts ++
      [{ type := "success", title := "Upload Successful",
         message := "Videos are now processing. See status below." },
       { type := "error", title := "Server Error",
         message := "Could not connect to the server or a network error occurred." }] ∧
    mapHas (handleUpload scenarioA formReady uploadAccepted).state.processingTasks "t9"
      = true := by
  decide

end VideoWatermark
